import Mathlib

/-!
# Fitness tracker: the streak and statistics update of the User model

A shallow embedding of `userSchema.methods.updateStats`
(`backend/models/User.js`) and the properties of the streak counter that
the specification states about it.

Modelling conventions.

* A JavaScript `Date` is its time value: an integer number of milliseconds
  since the epoch.
* `Date.prototype.setHours(0, 0, 0, 0)` works in the local time zone of the
  server process.  `setHoursZeroIn` and `User.updateStatsIn` take the zone
  as a `TimeZone`, which may change its offset (daylight saving).
  `setHoursZero` and `User.updateStats` are the same functions in a zone
  whose offset is the same number `tz` of milliseconds at every instant
  (`tz = 0` is a server running in UTC); `updateStatsIn_fixedZone` proves
  that they agree there, and the theorems stated with `tz` are about such
  zones.
* The counters of the `stats` sub-document have the schema type `Number`;
  they are integers here, so a record that stores a negative counter is
  still a value of the model.
* `daysDifference` is the quotient of a division that JavaScript performs on
  numbers; it is a rational number here, so the two comparisons of the
  source, `=== 1` and `> 1`, are made on the quotient itself.

The second part embeds the aggregations of the Workout model
(`backend/models/Workout.js`) and of the `GET /api/workouts/stats` route
(`backend/routes/workouts.js`).

* The collection is the list of its documents, in storage order.
* The stages `$match`, `$group` and `$sort` and the accumulators `$sum` and
  `$avg` belong to the database; they are functions here that follow their
  documented behaviour: `$group` goes through the documents and puts each
  into the group of its key, `$sum` and `$avg` skip a field that is absent,
  `$avg` of no value at all is `null` (`none`), and averages are rational
  numbers.
* The key `$dateToString` with format `%Y-%m-%d` and no time zone is the UTC
  calendar date of the document; it is the count of UTC days since the epoch
  here, which orders the dates as the strings do (four-digit years).
* `new Date()` is a read of the clock.  The handler of the stats route
  reads it twice and `getWorkoutFrequency` reads it again, after the awaited
  `getUserStats`: `statsRouteAt` takes the three values, and `statsRoute` is
  the handler when all three are the one instant `now`.
  `d.setDate(d.getDate() - days)` moves a date back by `days` local days,
  which is `days * msPerDay` milliseconds in a zone with a fixed offset.

The third part embeds the validation utilities of the front end
(`src/utils/validationUtils.js`, `frontend/src/utils/validation.js`), the
photo selection of the workout form (`pages/Workouts/WorkoutForm.js`) and
the handlers of the workout routes as far as they touch the stats.

* A JavaScript string is the list of its UTF-16 code units; `utf16` gives
  the code units of a text.
* A regular expression is the function that decides its match: `.` is any
  code unit but a line terminator, `^` and `$` are the ends of the input.
* The numbers that the validators compare (`reps`, `weight`, the value of
  `parseInt`) are integers.
* A route handler is a function from the database before the request to
  the status it answers with and the database after it.
-/

namespace FitnessTracker

/-- The `stats` sub-document of the User schema (User.js, lines 43-63).
`lastWorkoutDate` has no default: it is absent until the first update. -/
structure Stats where
  totalWorkouts : Int
  totalDuration : Int
  currentStreak : Int
  longestStreak : Int
  lastWorkoutDate : Option Int
  deriving DecidableEq, Repr

/-- The stats of a freshly created user: every `default: 0` of the schema,
and no `lastWorkoutDate`. -/
def defaultStats : Stats :=
  { totalWorkouts := 0
    totalDuration := 0
    currentStreak := 0
    longestStreak := 0
    lastWorkoutDate := none }

/-- The divisor `1000 * 60 * 60 * 24` of `updateStats`: milliseconds in a day. -/
def msPerDay : Int := 1000 * 60 * 60 * 24

/-- The call `d.setHours(0, 0, 0, 0)` on a date with time value `t`, in a
zone whose offset from UTC is `tz` at every instant: the time value of local
midnight of the same local day.  `setHoursZeroIn` is the call in any zone. -/
def setHoursZero (tz t : Int) : Int :=
  t - (t + tz) % msPerDay

/-- The expression `(workoutDay - lastWorkoutDay) / (1000 * 60 * 60 * 24)`
of `updateStats`, on two time values. -/
def daysDifference (workoutDay lastWorkoutDay : Int) : Rat :=
  ((workoutDay - lastWorkoutDay : Int) : Rat) / ((msPerDay : Int) : Rat)

/-- The method `userSchema.methods.updateStats` (User.js, lines 87-120), as a
function from the stats before the call to the stats after it, in a zone
whose offset from UTC is `tz` at every instant (`User.updateStatsIn` is the
method in any zone).  The local `today` of the source is computed and never
read, so it has no counterpart here. -/
def User.updateStats (tz : Int) (stats : Stats) (workoutDate duration : Int) : Stats :=
  let totalWorkouts := stats.totalWorkouts + 1
  let totalDuration := stats.totalDuration + duration
  let workoutDay := setHoursZero tz workoutDate
  let currentStreak :=
    match stats.lastWorkoutDate with
    | some lastWorkoutDate =>
      let lastWorkoutDay := setHoursZero tz lastWorkoutDate
      if daysDifference workoutDay lastWorkoutDay = 1 then
        stats.currentStreak + 1
      else if daysDifference workoutDay lastWorkoutDay > 1 then
        1
      else
        stats.currentStreak
    | none => 1
  let longestStreak :=
    if currentStreak > stats.longestStreak then currentStreak else stats.longestStreak
  { totalWorkouts := totalWorkouts
    totalDuration := totalDuration
    currentStreak := currentStreak
    longestStreak := longestStreak
    lastWorkoutDate := some workoutDate }

/-- The calendar day of a time value in the zone `tz`, as a count of local
days since the epoch.  The properties below are stated on it: two dates are
"the same calendar day" when it agrees on them, and "day `D + 1`" is its
successor. -/
def calendarDay (tz t : Int) : Int :=
  (t + tz) / msPerDay

/-- The stats after the workouts of `ws` have been logged one after the
other, each a pair `(date, duration)`: the create-workout route calls
`user.updateStats(workout.date, workout.duration)` once per created workout
(routes/workouts.js, line 217). -/
def applyWorkouts (tz : Int) (stats : Stats) (ws : List (Int × Int)) : Stats :=
  ws.foldl (fun acc w => User.updateStats tz acc w.1 w.2) stats

/-- The calendar days of the workouts of a log, in the order of the log. -/
def workoutDays (tz : Int) (ws : List (Int × Int)) : List Int :=
  ws.map (fun w => calendarDay tz w.1)

/-- From the glossary of the specification ("Streak: count of consecutive
calendar days on which the user logged at least one workout"): the length of
the run of consecutive days that ends at day `d` and lies within `days`,
found by walking back from `d` one day at a time, over at most `fuel` days. -/
def streakEndingAt (days : List Int) (d : Int) : Nat → Nat
  | 0 => 0
  | fuel + 1 => if d ∈ days then streakEndingAt days (d - 1) fuel + 1 else 0

/-- From the data model of the specification ("longest streak ever
achieved"): the length of the longest run of consecutive days within `days`,
the largest of the runs that end at a day of the list. -/
def longestStreakIn (days : List Int) : Nat :=
  (days.map (fun d => streakEndingAt days d days.length)).foldr max 0

/-! ## The method in a zone that changes its offset -/

/-- A time zone as `Date` reads it: `offsetAtUtc t` is the offset of local
time from UTC, in milliseconds, at the instant `t` (`LocalTZA(t, true)` of
ECMAScript), and `offsetAtLocal l` the offset by which the local time value
`l` is taken back to an instant (`LocalTZA(l, false)`). -/
structure TimeZone where
  offsetAtUtc : Int → Int
  offsetAtLocal : Int → Int

/-- The zone whose offset is `tz` at every instant. -/
def fixedZone (tz : Int) : TimeZone :=
  { offsetAtUtc := fun _ => tz
    offsetAtLocal := fun _ => tz }

/-- The zone America/New_York from 2024-03-10 to 2025-03-09: four hours
behind UTC up to 2024-11-03T06:00Z (1730613600000), when daylight saving
ends and the clocks go from 02:00 back to 01:00, and five hours behind from
then on.  A local time before 02:00 of that day (1730599200000 as a local
time value) is read with the offset before the change, as ECMAScript does
with a local time that occurs twice. -/
def newYork : TimeZone :=
  { offsetAtUtc := fun t => if t < 1730613600000 then -14400000 else -18000000
    offsetAtLocal := fun l => if l < 1730599200000 then -14400000 else -18000000 }

/-- The call `d.setHours(0, 0, 0, 0)` on a date with time value `t`, in any
zone: the local time of `t`, cut down to the start of its local day, and
taken back to an instant (`LocalTime`, `MakeDate (Day ...)` with a time of 0,
and `UTC` of ECMAScript). -/
def setHoursZeroIn (zone : TimeZone) (t : Int) : Int :=
  let localTime := t + zone.offsetAtUtc t
  let midnight := localTime - localTime % msPerDay
  midnight - zone.offsetAtLocal midnight

/-- The method `userSchema.methods.updateStats` (User.js, lines 87-120) in
any zone: `User.updateStats` with `setHoursZeroIn` for the three calls of
`setHours`. -/
def User.updateStatsIn (zone : TimeZone) (stats : Stats) (workoutDate duration : Int) :
    Stats :=
  let totalWorkouts := stats.totalWorkouts + 1
  let totalDuration := stats.totalDuration + duration
  let workoutDay := setHoursZeroIn zone workoutDate
  let currentStreak :=
    match stats.lastWorkoutDate with
    | some lastWorkoutDate =>
      let lastWorkoutDay := setHoursZeroIn zone lastWorkoutDate
      if daysDifference workoutDay lastWorkoutDay = 1 then
        stats.currentStreak + 1
      else if daysDifference workoutDay lastWorkoutDay > 1 then
        1
      else
        stats.currentStreak
    | none => 1
  let longestStreak :=
    if currentStreak > stats.longestStreak then currentStreak else stats.longestStreak
  { totalWorkouts := totalWorkouts
    totalDuration := totalDuration
    currentStreak := currentStreak
    longestStreak := longestStreak
    lastWorkoutDate := some workoutDate }

/-- The calendar day of a time value in any zone, as a count of local days
since the epoch: the day of its local time. -/
def localDay (zone : TimeZone) (t : Int) : Int :=
  (t + zone.offsetAtUtc t) / msPerDay

/-- The stats after the workouts of a log, in any zone. -/
def applyWorkoutsIn (zone : TimeZone) (stats : Stats) (ws : List (Int × Int)) : Stats :=
  ws.foldl (fun acc w => User.updateStatsIn zone acc w.1 w.2) stats

/-! ## The Workout collection and its aggregations -/

/-- The values of the `category` enum of the Workout schema. -/
inductive Category where
  | cardio
  | strength
  | flexibility
  | sports
  | other
  deriving DecidableEq, Repr

/-- A document of the Workout collection (Workout.js, lines 3-50), with the
fields that the aggregations read: the owner, the duration in minutes, the
date as a time value, the optional `caloriesBurned` and the category. -/
structure Workout where
  user : Nat
  duration : Int
  date : Int
  caloriesBurned : Option Int
  category : Category
  deriving DecidableEq, Repr

/-- The accumulator `$sum` on the values of a field: a document without the
field adds nothing. -/
def sumAcc (vs : List (Option Int)) : Int :=
  vs.reduceOption.sum

/-- The accumulator `$avg` on the values of a field: the mean of the values
that are present, and `null` when there is none. -/
def avgAcc (vs : List (Option Int)) : Option Rat :=
  if vs.reduceOption = [] then none
  else some (((vs.reduceOption.sum : Int) : Rat) / ((vs.reduceOption.length : Nat) : Rat))

/-- One step of `$group`: the document `w`, whose key is `k`, joins the
group of `k`, or opens it when no document with that key came before. -/
def groupInsert {κ : Type} [DecidableEq κ] (k : κ) (w : Workout) :
    List (κ × List Workout) → List (κ × List Workout)
  | [] => [(k, [w])]
  | e :: rest =>
    if k = e.1 then (e.1, e.2 ++ [w]) :: rest else e :: groupInsert k w rest

/-- The stage `$group` with the key expression `key`: the groups of the
documents, each with its key and its members. -/
def groupStage {κ : Type} [DecidableEq κ] (key : Workout → κ) (docs : List Workout) :
    List (κ × List Workout) :=
  docs.foldl (fun acc w => groupInsert (key w) w acc) []

/-- The object that `getUserStats` returns: the fields of its `$group`
stage. -/
structure UserStats where
  totalWorkouts : Int
  totalDuration : Int
  totalCalories : Int
  avgDuration : Option Rat
  avgCalories : Option Rat
  deriving DecidableEq, Repr

/-- The `matchStage` of `getUserStats` (Workout.js, lines 63-70): the user,
and the closed date range when `startDate` and `endDate` are both given. -/
def matchStage (userId : Nat) (startDate endDate : Option Int) (w : Workout) : Bool :=
  match startDate, endDate with
  | some s, some e => decide (w.user = userId) && (decide (s ≤ w.date) && decide (w.date ≤ e))
  | _, _ => decide (w.user = userId)

/-- The static method `getUserStats` (Workout.js, lines 62-93): the match
stage, one group for all matching documents (`_id: null`), and the zero
object when the aggregation returns no document. -/
def Workout.getUserStats (collection : List Workout) (userId : Nat)
    (startDate endDate : Option Int) : UserStats :=
  let stats : List UserStats :=
    (groupStage (fun _ => ()) (collection.filter (matchStage userId startDate endDate))).map
      (fun g =>
        { totalWorkouts := (g.2.length : Int)
          totalDuration := sumAcc (g.2.map (fun w => some w.duration))
          totalCalories := sumAcc (g.2.map (fun w => w.caloriesBurned))
          avgDuration := avgAcc (g.2.map (fun w => some w.duration))
          avgCalories := avgAcc (g.2.map (fun w => w.caloriesBurned)) })
  match stats with
  | first :: _ => first
  | [] =>
    { totalWorkouts := 0
      totalDuration := 0
      totalCalories := 0
      avgDuration := some 0
      avgCalories := some 0 }

/-- The key `$dateToString: { format: '%Y-%m-%d', date: '$date' }`: the UTC
calendar date of a time value, as a count of days since the epoch. -/
def dateToString (t : Int) : Int :=
  t / msPerDay

/-- An entry of the series that `getWorkoutFrequency` returns. -/
structure FrequencyEntry where
  _id : Int
  count : Int
  totalDuration : Int
  totalCalories : Int
  deriving DecidableEq, Repr

/-- The static method `getWorkoutFrequency` (Workout.js, lines 96-121): the
documents of the user dated `startDate` or later, grouped by day, sorted by
`_id` ascending. -/
def Workout.getWorkoutFrequency (collection : List Workout) (now : Int) (userId : Nat)
    (days : Int) : List FrequencyEntry :=
  let startDate := now - days * msPerDay
  let matched := collection.filter
    (fun w => decide (w.user = userId) && decide (startDate ≤ w.date))
  let grouped : List FrequencyEntry :=
    (groupStage (fun w => dateToString w.date) matched).map
      (fun g =>
        { _id := g.1
          count := (g.2.length : Int)
          totalDuration := sumAcc (g.2.map (fun w => some w.duration))
          totalCalories := sumAcc (g.2.map (fun w => w.caloriesBurned)) })
  grouped.insertionSort (fun a b => a._id ≤ b._id)

/-- An entry of the `categoryBreakdown` of the stats route. -/
structure CategoryEntry where
  _id : Category
  count : Int
  totalDuration : Int
  avgDuration : Option Rat
  deriving DecidableEq, Repr

/-- The `data` of the response of `GET /api/workouts/stats`; the `period`
label is the number of days it is built from. -/
structure StatsData where
  overview : UserStats
  frequency : List FrequencyEntry
  categoryBreakdown : List CategoryEntry
  period : Int
  deriving DecidableEq, Repr

/-- The handler of `GET /api/workouts/stats` (routes/workouts.js, lines
95-132) for the authenticated user `userId`, with `days` the integer that
`parseInt(period)` gives and its three reads of the clock: `t0` is the
`new Date()` of line 100, from which `startDate` is taken, `t1` is the
`new Date()` of line 103, passed as `endDate`, and `t2` is the `new Date()`
of `getWorkoutFrequency` (Workout.js, line 97), read after the awaited
`getUserStats`. -/
def statsRouteAt (collection : List Workout) (t0 t1 t2 : Int) (userId : Nat) (days : Int) :
    StatsData :=
  let startDate := t0 - days * msPerDay
  let stats := Workout.getUserStats collection userId (some startDate) (some t1)
  let frequency := Workout.getWorkoutFrequency collection t2 userId days
  let categoryStats : List CategoryEntry :=
    (groupStage (fun w => w.category)
      (collection.filter (fun w => decide (w.user = userId) && decide (startDate ≤ w.date)))).map
      (fun g =>
        { _id := g.1
          count := (g.2.length : Int)
          totalDuration := sumAcc (g.2.map (fun w => some w.duration))
          avgDuration := avgAcc (g.2.map (fun w => some w.duration)) })
  { overview := stats
    frequency := frequency
    categoryBreakdown := categoryStats
    period := days }

/-- The handler of `GET /api/workouts/stats` when its three reads of the
clock give the one instant `now`: `statsRouteAt` at `now`, `now` and
`now`. -/
def statsRoute (collection : List Workout) (now : Int) (userId : Nat) (days : Int) :
    StatsData :=
  let startDate := now - days * msPerDay
  let stats := Workout.getUserStats collection userId (some startDate) (some now)
  let frequency := Workout.getWorkoutFrequency collection now userId days
  let categoryStats : List CategoryEntry :=
    (groupStage (fun w => w.category)
      (collection.filter (fun w => decide (w.user = userId) && decide (startDate ≤ w.date)))).map
      (fun g =>
        { _id := g.1
          count := (g.2.length : Int)
          totalDuration := sumAcc (g.2.map (fun w => some w.duration))
          avgDuration := avgAcc (g.2.map (fun w => some w.duration)) })
  { overview := stats
    frequency := frequency
    categoryBreakdown := categoryStats
    period := days }

/-! ## Strings and the validation utilities of the front end -/

/-- The UTF-16 code units of a text: a JavaScript string is the list of its
code units, and `length`, `substring` and a regular expression without the
`u` flag all work on code units. -/
def utf16 (s : String) : List Nat :=
  s.toList.flatMap (fun c =>
    if c.toNat < 65536 then [c.toNat]
    else [55296 + (c.toNat - 65536) / 1024, 56320 + (c.toNat - 65536) % 1024])

/-- The line terminators of ECMAScript: LF, CR, LS and PS. -/
def isLineTerminator (c : Nat) : Bool :=
  c = 10 || c = 13 || c = 8232 || c = 8233

/-- The code units that `String.prototype.trim` and `parseInt` skip: the
white space of ECMAScript (TAB, VT, FF, SP, NBSP, ZWNBSP and the space
separators of Unicode) and the line terminators. -/
def isWhiteSpace (c : Nat) : Bool :=
  c = 9 || c = 11 || c = 12 || c = 32 || c = 160 || c = 65279
    || c = 5760 || (8192 ≤ c && c ≤ 8202) || c = 8239 || c = 8287 || c = 12288
    || isLineTerminator c

/-- The class `[a-z]`. -/
def isLowercase (c : Nat) : Bool := 97 ≤ c && c ≤ 122

/-- The class `[A-Z]`. -/
def isUppercase (c : Nat) : Bool := 65 ≤ c && c ≤ 90

/-- The class `\d`, which is `[0-9]`. -/
def isDigit (c : Nat) : Bool := 48 ≤ c && c ≤ 57

/-- The class `[!@#$%^&*(),.?":{}|<>]` of `getPasswordStrength`, by code
unit: `!` 33, `"` 34, `#` 35, `$` 36, `%` 37, `&` 38, `(` 40, `)` 41, `*` 42,
`,` 44, `.` 46, `:` 58, `<` 60, `>` 62, `?` 63, `@` 64, `^` 94 and the braces
and the bar 123, 124, 125. -/
def isSpecial (c : Nat) : Bool :=
  c ∈ [33, 64, 35, 36, 37, 94, 38, 42, 40, 41, 44, 46, 63, 34, 58, 123, 125, 124, 60, 62]

/-- The atom `.` of a regular expression without the `s` flag: any code unit
but a line terminator. -/
def matchesDot (c : Nat) : Bool := !isLineTerminator c

/-- The lookahead body `.*[cls]` at the start of `s`: some code unit of the
class is reached from the start over code units that `.` matches. -/
def matchDotStarClass (cls : Nat → Bool) : List Nat → Bool
  | [] => false
  | c :: rest => cls c || (matchesDot c && matchDotStarClass cls rest)

/-- The tail `.{6,}$` at the start of `s`: six code units or more up to the
end of the input, every one matched by `.`. -/
def matchDotSixToEnd (s : List Nat) : Bool :=
  decide (6 ≤ s.length) && s.all matchesDot

/-- The function `validatePassword` of validationUtils.js (lines 6-10): the
test of `/^(?=.*[a-z])(?=.*[A-Z])(?=.*\d).{6,}$/`.  The anchor `^` lets a
match start at index 0 only, and the three lookaheads consume nothing. -/
def validatePassword (password : List Nat) : Bool :=
  matchDotStarClass isLowercase password
    && (matchDotStarClass isUppercase password
    && (matchDotStarClass isDigit password
    && matchDotSixToEnd password))

/-- The value of a digit of radix 10 or 16, when the code unit is one. -/
def digitValue (radix c : Nat) : Option Nat :=
  if 48 ≤ c ∧ c ≤ 57 then some (c - 48)
  else if radix = 16 ∧ 97 ≤ c ∧ c ≤ 102 then some (c - 87)
  else if radix = 16 ∧ 65 ≤ c ∧ c ≤ 70 then some (c - 55)
  else none

/-- The digits that `parseInt` reads: the values of the longest run of
digits of the radix at the start of `s`. -/
def leadingDigits (radix : Nat) : List Nat → List Nat
  | [] => []
  | c :: rest =>
    match digitValue radix c with
    | some v => v :: leadingDigits radix rest
    | none => []

/-- The global `parseInt` of one argument: leading white space is skipped, a
sign is read, `0x` or `0X` selects radix 16, and the longest run of digits
is the value; `none` is `NaN`.  The value is an exact integer here. -/
def parseInt (input : List Nat) : Option Int :=
  let s := input.dropWhile isWhiteSpace
  let sign : Int := if s.head? = some 45 then -1 else 1
  let s1 := if s.head? = some 45 ∨ s.head? = some 43 then s.tail else s
  let hex : Bool := decide (s1.take 2 = [48, 120] ∨ s1.take 2 = [48, 88])
  let radix : Nat := if hex then 16 else 10
  let s2 := if hex then s1.drop 2 else s1
  let z := leadingDigits radix s2
  if z = [] then none
  else some (sign * ((z.foldl (fun acc v => acc * radix + v) 0 : Nat) : Int))

/-- The function `validateDuration` of validationUtils.js (lines 16-19). -/
def validateDuration (duration : List Nat) : Bool :=
  match parseInt duration with
  | none => false
  | some num => decide (num > 0) && decide (num ≤ 600)

/-- The value of a run of decimal digits, given by their code units. -/
def decimalValue (digits : List Nat) : Nat :=
  digits.foldl (fun acc c => acc * 10 + (c - 48)) 0

/-- From the data model of the specification ("duration in minutes (integer,
1-600)") and the validator `isInt` of the create-workout route: the integer
that a string denotes, when it is an optional sign followed by one or more
decimal digits and nothing else. -/
def integerOf (d : List Nat) : Option Int :=
  let sign : Int := if d.head? = some 45 then -1 else 1
  let digits := if d.head? = some 45 ∨ d.head? = some 43 then d.tail else d
  if digits ≠ [] ∧ digits.all isDigit = true then some (sign * (decimalValue digits : Int))
  else none

/-- The fields `checks` of the result of `getPasswordStrength`. -/
structure PasswordChecks where
  length : Bool
  lowercase : Bool
  uppercase : Bool
  number : Bool
  special : Bool
  deriving DecidableEq, Repr

/-- The object that `getPasswordStrength` returns; `color` and `checks` are
absent from the object of the empty password. -/
structure PasswordStrength where
  strength : Nat
  label : String
  color : Option String
  checks : Option PasswordChecks
  deriving DecidableEq, Repr

/-- An element of the table `strengthLevels`. -/
structure StrengthLevel where
  min : Nat
  max : Nat
  label : String
  color : String
  deriving DecidableEq, Repr

/-- The table `strengthLevels` of `getPasswordStrength` (lines 41-47). -/
def strengthLevels : List StrengthLevel :=
  [ ⟨0, 1, "Very Weak", "red"⟩
  , ⟨2, 2, "Weak", "orange"⟩
  , ⟨3, 3, "Fair", "yellow"⟩
  , ⟨4, 4, "Good", "blue"⟩
  , ⟨5, 5, "Strong", "green"⟩ ]

/-- The function `getPasswordStrength` of validationUtils.js (lines 27-57).
The result is `none` when `find` returns `undefined`, where reading
`level.label` throws. -/
def getPasswordStrength (password : List Nat) : Option PasswordStrength :=
  if password = [] then
    some { strength := 0, label := "None", color := none, checks := none }
  else
    let checks : PasswordChecks :=
      { length := decide (password.length ≥ 8)
        lowercase := password.any isLowercase
        uppercase := password.any isUppercase
        number := password.any isDigit
        special := password.any isSpecial }
    let score :=
      ([checks.length, checks.lowercase, checks.uppercase, checks.number,
        checks.special].filter id).length
    match strengthLevels.find? (fun l => decide (score ≥ l.min) && decide (score ≤ l.max)) with
    | none => none
    | some level =>
      some { strength := score, label := level.label, color := some level.color,
             checks := some checks }

/-- A JavaScript value, as far as `sanitizeInput` tells values apart: a
string, or a value of another type. -/
inductive JsValue where
  | string (s : List Nat)
  | number (n : Int)
  | boolean (b : Bool)
  | null
  | undefined
  | object (ref : Nat)
  deriving DecidableEq, Repr

/-- The method `String.prototype.trim`: white space and line terminators are
removed at both ends. -/
def trim (s : List Nat) : List Nat :=
  ((s.dropWhile isWhiteSpace).reverse.dropWhile isWhiteSpace).reverse

/-- The function `sanitizeInput` of validationUtils.js (lines 59-66):
`trim`, then every `<` (60) and `>` (62) removed, then the first 1000 code
units. -/
def sanitizeInput (input : JsValue) : JsValue :=
  match input with
  | JsValue.string s =>
    JsValue.string (((trim s).filter (fun c => !(c = 60 || c = 62))).take 1000)
  | other => other

/-- A set of an exercise, as `validateWorkout` reads it: `reps` and `weight`
are numbers (integers here) or absent. -/
structure ExerciseSet where
  reps : Option Int
  weight : Option Int
  deriving DecidableEq, Repr

/-- An exercise, as `validateWorkout` reads it. -/
structure Exercise where
  name : Option (List Nat)
  sets : Option (List ExerciseSet)
  deriving DecidableEq, Repr

/-- The argument `workout` of `validateWorkout`. -/
structure WorkoutInput where
  name : Option (List Nat)
  type : Option (List Nat)
  duration : Option Int
  exercises : Option (List Exercise)
  deriving DecidableEq, Repr

/-- The object `{ isValid, errors }` that the validators of validation.js
return. -/
structure ValidationResult where
  isValid : Bool
  errors : List String
  deriving DecidableEq, Repr

/-- The test `!s` on a string that may be absent: `undefined`, `null` and
the empty string are falsy. -/
def falsyString (s : Option (List Nat)) : Bool :=
  match s with
  | none => true
  | some v => decide (v = [])

/-- The test `!name || name.trim().length === 0` on an optional string. -/
def isBlank (name : Option (List Nat)) : Bool :=
  falsyString name || decide ((trim (name.getD [])).length = 0)

/-- The truth value of a number that may be absent: `undefined`, `null` and
0 are falsy. -/
def truthyNumber (n : Option Int) : Bool :=
  match n with
  | none => false
  | some v => decide (v ≠ 0)

/-- The errors that `validateWorkout` pushes for one set (lines 128-134). -/
def setErrors (index setIndex : Nat) (set : ExerciseSet) : List String :=
  (if truthyNumber set.reps
      && (decide (set.reps.getD 0 ≤ 0) || decide (set.reps.getD 0 > 1000)) then
    ["Exercise " ++ toString (index + 1) ++ ", Set " ++ toString (setIndex + 1)
      ++ ": Reps must be between 1 and 1000"]
  else [])
  ++
  (if truthyNumber set.weight
      && (decide (set.weight.getD 0 < 0) || decide (set.weight.getD 0 > 1000)) then
    ["Exercise " ++ toString (index + 1) ++ ", Set " ++ toString (setIndex + 1)
      ++ ": Weight must be between 0 and 1000"]
  else [])

/-- The errors that `validateWorkout` pushes for one exercise (lines
122-136). -/
def exerciseErrors (index : Nat) (exercise : Exercise) : List String :=
  (if isBlank exercise.name then
    ["Exercise " ++ toString (index + 1) ++ ": Name is required"]
  else [])
  ++
  (match exercise.sets with
   | none => []
   | some sets =>
     if sets.length > 0 then
       sets.enum.flatMap (fun p => setErrors index p.1 p.2)
     else [])

/-- The function `validateWorkout` of validation.js (lines 100-144). -/
def validateWorkout (workout : WorkoutInput) : ValidationResult :=
  let errors : List String :=
    (if isBlank workout.name then ["Workout name is required"] else [])
    ++ (if falsyString workout.type then ["Workout type is required"] else [])
    ++ (if !truthyNumber workout.duration || decide (workout.duration.getD 0 ≤ 0) then
          ["Workout duration must be greater than 0"] else [])
    ++ (match workout.exercises with
        | some [] => ["At least one exercise is required"]
        | _ => [])
    ++ (match workout.exercises with
        | none => []
        | some exercises => exercises.enum.flatMap (fun p => exerciseErrors p.1 p.2))
  { isValid := decide (errors.length = 0), errors := errors }

/-- A `File` of the browser, with the fields that the workout form reads. -/
structure File where
  name : List Nat
  type : List Nat
  size : Nat
  deriving DecidableEq, Repr

/-- The method `String.prototype.startsWith`. -/
def startsWith (s searchString : List Nat) : Bool :=
  decide (s.take searchString.length = searchString)

/-- The filter of `handlePhotoChange` (WorkoutForm.js, lines 87-100): the
type starts with `image/` and the size is at most 5 MB. -/
def isValidPhoto (file : File) : Bool :=
  startsWith file.type (utf16 "image/") && decide (file.size ≤ 5 * 1024 * 1024)

/-- The state update of `handlePhotoChange` (WorkoutForm.js, line 102):
`[...prev, ...validFiles].slice(0, 5)`. -/
def handlePhotoChange (prev files : List File) : List File :=
  (prev ++ files.filter isValidPhoto).take 5

/-- The state update of `removePhoto` (WorkoutForm.js, line 106):
`prev.filter((_, i) => i !== index)`. -/
def removePhoto (prev : List File) (index : Nat) : List File :=
  (prev.enum.filter (fun p => decide (p.1 ≠ index))).map Prod.snd

/-- A call of one of the two handlers of the photo selection. -/
inductive PhotoEvent where
  | change (files : List File)
  | remove (index : Nat)
  deriving DecidableEq, Repr

/-- The selection `progressPhotos` after a sequence of calls. -/
def applyPhotoEvents (events : List PhotoEvent) (photos : List File) : List File :=
  events.foldl
    (fun prev ev =>
      match ev with
      | PhotoEvent.change files => handlePhotoChange prev files
      | PhotoEvent.remove index => removePhoto prev index)
    photos

/-! ## The workout routes and the stats of the user -/

/-- The two collections that the workout routes touch: the workouts, each
with its `_id`, and the users, each `_id` with the `stats` sub-document. -/
structure Database where
  workouts : List (Nat × Workout)
  users : List (Nat × Stats)
  deriving DecidableEq, Repr

/-- The validation of the Workout schema at `save()` on the fields of the
model: `duration` within 1..600 and `caloriesBurned`, when present, within
0..5000 (Workout.js, lines 15-30). -/
def schemaValid (w : Workout) : Bool :=
  decide (1 ≤ w.duration) && decide (w.duration ≤ 600)
    && (match w.caloriesBurned with
        | none => true
        | some c => decide (0 ≤ c) && decide (c ≤ 5000))

/-- The handler of `POST /api/workouts` (routes/workouts.js, lines 200-234)
after its validators have passed, as the status it answers with and the
database it leaves: the workout is saved under a new `_id` with the
authenticated user as its owner, the user is read, `updateStats` is applied
to the stats with the date and the duration of the workout, and the user is
saved.  An exception (a failed save, no such user) is answered with 500. -/
def postWorkout (tz : Int) (db : Database) (userId newId : Nat) (body : Workout) :
    Nat × Database :=
  let workout : Workout := { body with user := userId }
  if schemaValid workout then
    let db1 : Database := { db with workouts := db.workouts ++ [(newId, workout)] }
    match db1.users.find? (fun u => decide (u.1 = userId)) with
    | none => (500, db1)
    | some user =>
      let stats := User.updateStats tz user.2 workout.date workout.duration
      (201, { db1 with
                users := db1.users.map
                  (fun u => if u.1 = userId then (u.1, stats) else u) })
  else (500, db)

/-- The handler of `PUT /api/workouts/:id` (routes/workouts.js, lines
254-296): the workout of that `_id` and owner is read, the fields of the
body are assigned to it (`assign`), and it is saved. -/
def putWorkout (db : Database) (userId id : Nat) (assign : Workout → Workout) :
    Nat × Database :=
  match db.workouts.find? (fun d => decide (d.1 = id) && decide (d.2.user = userId)) with
  | none => (404, db)
  | some found =>
    if schemaValid (assign found.2) then
      (200, { db with
                workouts := db.workouts.map
                  (fun d => if d.1 = id ∧ d.2.user = userId then (d.1, assign d.2) else d) })
    else (500, db)

/-- The handler of `DELETE /api/workouts/:id` (routes/workouts.js, lines
301-326): `findOneAndDelete` on the `_id` and the owner. -/
def deleteWorkout (db : Database) (userId id : Nat) : Nat × Database :=
  match db.workouts.find? (fun d => decide (d.1 = id) && decide (d.2.user = userId)) with
  | none => (404, db)
  | some _ =>
    (200, { db with
              workouts := db.workouts.eraseP
                (fun d => decide (d.1 = id) && decide (d.2.user = userId)) })

/-! ## Arithmetic of the day normalisation -/

theorem setHoursZero_eq (tz t : Int) :
    setHoursZero tz t = calendarDay tz t * msPerDay - tz := by
  unfold setHoursZero calendarDay
  have h := Int.emod_add_ediv (t + tz) msPerDay
  linarith [mul_comm msPerDay ((t + tz) / msPerDay)]

theorem daysDifference_setHoursZero (tz w l : Int) :
    daysDifference (setHoursZero tz w) (setHoursZero tz l)
      = ((calendarDay tz w - calendarDay tz l : Int) : Rat) := by
  unfold daysDifference
  rw [setHoursZero_eq, setHoursZero_eq]
  have hm : ((msPerDay : Int) : Rat) ≠ 0 := by
    norm_num [msPerDay]
  rw [div_eq_iff hm]
  push_cast
  ring

theorem daysDifference_eq_one_iff (tz w l : Int) :
    daysDifference (setHoursZero tz w) (setHoursZero tz l) = 1
      ↔ calendarDay tz w = calendarDay tz l + 1 := by
  rw [daysDifference_setHoursZero]
  constructor
  · intro h
    have h1 : calendarDay tz w - calendarDay tz l = 1 := by exact_mod_cast h
    omega
  · intro h
    have h1 : calendarDay tz w - calendarDay tz l = 1 := by omega
    rw [h1]
    norm_num

theorem daysDifference_gt_one_iff (tz w l : Int) :
    daysDifference (setHoursZero tz w) (setHoursZero tz l) > 1
      ↔ calendarDay tz w > calendarDay tz l + 1 := by
  rw [daysDifference_setHoursZero]
  constructor
  · intro h
    have h1 : (1 : Int) < calendarDay tz w - calendarDay tz l := by exact_mod_cast h
    omega
  · intro h
    have h1 : (1 : Int) < calendarDay tz w - calendarDay tz l := by omega
    exact_mod_cast h1

/-- The streak that `updateStats` stores, by the difference of the calendar
days of the new and the previous workout. -/
theorem updateStats_currentStreak_some (tz : Int) (s : Stats) (last w d : Int)
    (hl : s.lastWorkoutDate = some last) :
    (User.updateStats tz s w d).currentStreak =
      if calendarDay tz w = calendarDay tz last + 1 then s.currentStreak + 1
      else if calendarDay tz w > calendarDay tz last + 1 then 1
      else s.currentStreak := by
  simp only [User.updateStats, hl, daysDifference_eq_one_iff, daysDifference_gt_one_iff]

/-! ## One call of `updateStats` -/

/-- In a zone with a fixed offset: when the stored `lastWorkoutDate` falls on
calendar day `D` and the new workout on day `D + 1`, `updateStats` leaves
`currentStreak` one higher than it was.  In a zone with daylight saving it
does not always (`updateStatsIn_newYork_consecutive_day`). -/
theorem updateStats_consecutive_day (tz : Int) (s : Stats) (last w d : Int)
    (hl : s.lastWorkoutDate = some last)
    (hd : calendarDay tz w = calendarDay tz last + 1) :
    (User.updateStats tz s w d).currentStreak = s.currentStreak + 1 := by
  rw [updateStats_currentStreak_some tz s last w d hl, if_pos hd]

/-- The scenario of the specification on a server in UTC: streak 2, last
workout on 2024-01-10, a 30 minute workout on 2024-01-11. -/
theorem updateStats_consecutive_day_witness :
    calendarDay 0 1704931200000 = calendarDay 0 1704844800000 + 1
    ∧ (User.updateStats 0 ⟨3, 90, 2, 5, some 1704844800000⟩ 1704931200000 30).currentStreak
        = 2 + 1
    ∧ User.updateStats 0 ⟨3, 90, 2, 5, some 1704844800000⟩ 1704931200000 30
        = ⟨4, 120, 3, 5, some 1704931200000⟩ :=
  ⟨by decide,
   updateStats_consecutive_day 0 ⟨3, 90, 2, 5, some 1704844800000⟩ 1704844800000
     1704931200000 30 rfl (by decide),
   by simp [User.updateStats, daysDifference, setHoursZero, msPerDay]⟩

/-- C2: when the stored `lastWorkoutDate` falls on calendar day `D` and the
new workout on day `D + k` with `k > 1`, `updateStats` leaves `currentStreak`
at 1, whatever it was before. -/
theorem updateStats_gap_resets (tz : Int) (s : Stats) (last w d k : Int)
    (hl : s.lastWorkoutDate = some last)
    (hk : 1 < k)
    (hd : calendarDay tz w = calendarDay tz last + k) :
    (User.updateStats tz s w d).currentStreak = 1 := by
  rw [updateStats_currentStreak_some tz s last w d hl,
    if_neg (by omega), if_pos (by omega)]

/-- A gap of four days (2024-01-10 to 2024-01-14) on a streak of 7. -/
theorem updateStats_gap_resets_witness :
    (1 : Int) < 4
    ∧ calendarDay 0 1705190400000 = calendarDay 0 1704844800000 + 4
    ∧ (User.updateStats 0 ⟨9, 300, 7, 7, some 1704844800000⟩ 1705190400000 45).currentStreak
        = 1 :=
  ⟨by decide, by decide,
   updateStats_gap_resets 0 ⟨9, 300, 7, 7, some 1704844800000⟩ 1704844800000
     1705190400000 45 4 rfl (by decide) (by decide)⟩

/-- C3: when the new workout falls on the same calendar day as the stored
`lastWorkoutDate`, `updateStats` leaves `currentStreak` as it was, and
`totalWorkouts` is one higher. -/
theorem updateStats_same_day (tz : Int) (s : Stats) (last w d : Int)
    (hl : s.lastWorkoutDate = some last)
    (hd : calendarDay tz w = calendarDay tz last) :
    (User.updateStats tz s w d).currentStreak = s.currentStreak
    ∧ (User.updateStats tz s w d).totalWorkouts = s.totalWorkouts + 1 := by
  refine ⟨?_, rfl⟩
  rw [updateStats_currentStreak_some tz s last w d hl,
    if_neg (by omega), if_neg (by omega)]

/-- A second workout at 18:30 on 2024-01-10, after one at 07:00 of that day. -/
theorem updateStats_same_day_witness :
    calendarDay 0 1704911400000 = calendarDay 0 1704870000000
    ∧ (User.updateStats 0 ⟨3, 90, 2, 5, some 1704870000000⟩ 1704911400000 20).currentStreak
        = 2
    ∧ (User.updateStats 0 ⟨3, 90, 2, 5, some 1704870000000⟩ 1704911400000 20).totalWorkouts
        = 3 + 1 :=
  ⟨by decide,
   updateStats_same_day 0 ⟨3, 90, 2, 5, some 1704870000000⟩ 1704870000000
     1704911400000 20 rfl (by decide)⟩

/-- C4: the first workout of a user, whose stats are the creation defaults
(counters 0, no `lastWorkoutDate`), gives `currentStreak = 1` and
`totalWorkouts = 1`, whatever its date and duration. -/
theorem updateStats_first_workout (tz w d : Int) :
    (User.updateStats tz defaultStats w d).currentStreak = 1
    ∧ (User.updateStats tz defaultStats w d).totalWorkouts = 1 := by
  constructor <;> rfl

/-- C5, as stated, fails: with a streak of 2 and the last workout on
2024-01-10, a workout dated 2024-01-09 leaves the streak at 2; it is not
reset to 1. -/
theorem updateStats_backdated_not_reset :
    calendarDay 0 1704758400000 < calendarDay 0 1704844800000
    ∧ (User.updateStats 0 ⟨3, 90, 2, 5, some 1704844800000⟩ 1704758400000 30).currentStreak
        = 2
    ∧ (User.updateStats 0 ⟨3, 90, 2, 5, some 1704844800000⟩ 1704758400000 30).currentStreak
        ≠ 1 := by
  refine ⟨by decide, ?_, ?_⟩ <;>
    simp [User.updateStats, daysDifference, setHoursZero, msPerDay] <;> norm_num

/-- C5, amended: when the new workout falls on a calendar day strictly
earlier than the day of the stored `lastWorkoutDate`, neither comparison of
the chain holds and `updateStats` leaves `currentStreak` as it was, as it
does for a workout of the same day. -/
theorem updateStats_backdated_unchanged (tz : Int) (s : Stats) (last w d : Int)
    (hl : s.lastWorkoutDate = some last)
    (hd : calendarDay tz w < calendarDay tz last) :
    ¬ daysDifference (setHoursZero tz w) (setHoursZero tz last) = 1
    ∧ ¬ daysDifference (setHoursZero tz w) (setHoursZero tz last) > 1
    ∧ (User.updateStats tz s w d).currentStreak = s.currentStreak := by
  refine ⟨?_, ?_, ?_⟩
  · rw [daysDifference_eq_one_iff]; omega
  · rw [daysDifference_gt_one_iff]; omega
  · rw [updateStats_currentStreak_some tz s last w d hl,
      if_neg (by omega), if_neg (by omega)]

/-- A workout dated 2024-01-07 logged after one of 2024-01-10, streak 4. -/
theorem updateStats_backdated_unchanged_witness :
    calendarDay 0 1704585600000 < calendarDay 0 1704844800000
    ∧ (User.updateStats 0 ⟨6, 200, 4, 5, some 1704844800000⟩ 1704585600000 30).currentStreak
        = 4 :=
  ⟨by decide,
   (updateStats_backdated_unchanged 0 ⟨6, 200, 4, 5, some 1704844800000⟩ 1704844800000
     1704585600000 30 rfl (by decide)).2.2⟩

/-- C6: whatever the stats before the call (also stats with
`currentStreak > longestStreak`), the workout date and the duration, the
stats after `updateStats` have `longestStreak >= currentStreak`. -/
theorem updateStats_longest_ge_current (tz : Int) (s : Stats) (w d : Int) :
    (User.updateStats tz s w d).longestStreak ≥ (User.updateStats tz s w d).currentStreak := by
  simp only [User.updateStats]
  split_ifs <;> omega

/-- C7: the `longestStreak` after `updateStats` is the maximum of the
`longestStreak` before the call and the `currentStreak` after it; so on
stats with `longestStreak = 5`, a gap of more than one day gives
`currentStreak = 1` and leaves `longestStreak` at 5. -/
theorem updateStats_longestStreak_max (tz : Int) (s : Stats) (w d : Int) :
    (User.updateStats tz s w d).longestStreak
        = max s.longestStreak (User.updateStats tz s w d).currentStreak
    ∧ (∀ last : Int, s.lastWorkoutDate = some last →
        calendarDay tz w > calendarDay tz last + 1 → s.longestStreak = 5 →
        (User.updateStats tz s w d).currentStreak = 1
        ∧ (User.updateStats tz s w d).longestStreak = 5) := by
  have hmax : (User.updateStats tz s w d).longestStreak
      = max s.longestStreak (User.updateStats tz s w d).currentStreak := by
    simp only [User.updateStats]
    rw [max_def]
    split_ifs <;> omega
  refine ⟨hmax, ?_⟩
  intro last hl hgap h5
  have hc : (User.updateStats tz s w d).currentStreak = 1 := by
    rw [updateStats_currentStreak_some tz s last w d hl,
      if_neg (by omega), if_pos hgap]
  refine ⟨hc, ?_⟩
  rw [hmax, hc, h5]
  decide

/-- The scenario of the specification for C7: streak 2, longest streak 5,
last workout on 2024-01-10, a workout on 2024-01-15. -/
theorem updateStats_longestStreak_max_witness :
    calendarDay 0 1705276800000 > calendarDay 0 1704844800000 + 1
    ∧ (User.updateStats 0 ⟨3, 90, 2, 5, some 1704844800000⟩ 1705276800000 30).currentStreak
        = 1
    ∧ (User.updateStats 0 ⟨3, 90, 2, 5, some 1704844800000⟩ 1705276800000 30).longestStreak
        = 5 :=
  ⟨by decide,
   (updateStats_longestStreak_max 0 ⟨3, 90, 2, 5, some 1704844800000⟩ 1705276800000 30).2
     1704844800000 rfl (by decide) rfl⟩

/-- C8: whatever the stats before the call, the workout date and the
duration `d`, `updateStats` gives `totalWorkouts` one higher and
`totalDuration` higher by `d`. -/
theorem updateStats_totals (tz : Int) (s : Stats) (w d : Int) :
    (User.updateStats tz s w d).totalWorkouts = s.totalWorkouts + 1
    ∧ (User.updateStats tz s w d).totalDuration = s.totalDuration + d :=
  ⟨rfl, rfl⟩

/-- C9: `updateStats` stores the date of the new workout itself as
`lastWorkoutDate`, whatever date was stored before. -/
theorem updateStats_lastWorkoutDate (tz : Int) (s : Stats) (w d : Int) :
    (User.updateStats tz s w d).lastWorkoutDate = some w :=
  rfl

/-! ## A log of workouts in day order -/

theorem mem_workoutDays (tz : Int) (ws : List (Int × Int)) (x : Int) :
    x ∈ workoutDays tz ws ↔ ∃ w ∈ ws, calendarDay tz w.1 = x := by
  simp [workoutDays]

theorem applyWorkouts_append_singleton (tz : Int) (s : Stats) (l : List (Int × Int))
    (a : Int × Int) :
    applyWorkouts tz s (l ++ [a]) = User.updateStats tz (applyWorkouts tz s l) a.1 a.2 := by
  simp [applyWorkouts, List.foldl_append]

/-- The run that `streakEndingAt` measures: if the `n` days up to `d` are all
in `days`, the day before them is not, and the fuel covers them, the result
is `n`. -/
theorem streakEndingAt_eq (days : List Int) (n : Nat) :
    ∀ (d : Int) (fuel : Nat), n ≤ fuel →
      (∀ i : Nat, i < n → d - (i : Int) ∈ days) → d - (n : Int) ∉ days →
      streakEndingAt days d fuel = n := by
  induction n with
  | zero =>
    intro d fuel _ _ hout
    have hd : d ∉ days := by simpa using hout
    cases fuel with
    | zero => rfl
    | succ f => simp [streakEndingAt, hd]
  | succ n ih =>
    intro d fuel hle hin hout
    cases fuel with
    | zero => omega
    | succ f =>
      have hd : d ∈ days := by simpa using hin 0 (Nat.succ_pos n)
      have hrec : streakEndingAt days (d - 1) f = n := by
        apply ih (d - 1) f (by omega)
        · intro i hi
          have h := hin (i + 1) (by omega)
          have e : d - 1 - (i : Int) = d - ((i + 1 : Nat) : Int) := by push_cast; ring
          rw [e]; exact h
        · have e : d - 1 - (n : Int) = d - ((n + 1 : Nat) : Int) := by push_cast; ring
          rw [e]; exact hout
      simp [streakEndingAt, hd, hrec]

/-- What a log in day order leaves in the stats: the date of its last
workout, and a streak `n` such that the `n` days up to the last one all
have a workout and the day before them has none. -/
theorem applyWorkouts_sorted_run (tz : Int) (l : List (Int × Int)) :
    ∀ a : Int × Int,
      (l ++ [a]).Pairwise (fun x y => calendarDay tz x.1 ≤ calendarDay tz y.1) →
      (applyWorkouts tz defaultStats (l ++ [a])).lastWorkoutDate = some a.1
      ∧ ∃ n : Nat, (applyWorkouts tz defaultStats (l ++ [a])).currentStreak = (n : Int)
          ∧ 1 ≤ n ∧ n ≤ (l ++ [a]).length
          ∧ (∀ i : Nat, i < n →
              calendarDay tz a.1 - (i : Int) ∈ workoutDays tz (l ++ [a]))
          ∧ calendarDay tz a.1 - (n : Int) ∉ workoutDays tz (l ++ [a]) := by
  induction l using List.reverseRecOn with
  | nil =>
    intro a _
    refine ⟨rfl, 1, rfl, le_refl 1, by simp, ?_, ?_⟩
    · intro i hi
      have h0 : i = 0 := by omega
      subst h0
      simp [workoutDays]
    · simp [workoutDays]
  | append_singleton l b ih =>
    intro a hs
    rw [applyWorkouts_append_singleton]
    refine ⟨rfl, ?_⟩
    have hsplit := List.pairwise_append.mp hs
    obtain ⟨hlast, n, hn, hn1, hnlen, hin, hout⟩ := ih b hsplit.1
    have hba : calendarDay tz b.1 ≤ calendarDay tz a.1 :=
      hsplit.2.2 b (by simp) a (by simp)
    have hle : ∀ x ∈ workoutDays tz (l ++ [b]), x ≤ calendarDay tz b.1 := by
      intro x hx
      obtain ⟨w, hw, rfl⟩ := (mem_workoutDays tz _ _).mp hx
      rcases List.mem_append.mp hw with hwl | hwb
      · exact (List.pairwise_append.mp hsplit.1).2.2 w hwl b (by simp)
      · have : w = b := by simpa using hwb
        rw [this]
    have hdays : ∀ x : Int, x ∈ workoutDays tz (l ++ [b] ++ [a])
        ↔ x ∈ workoutDays tz (l ++ [b]) ∨ x = calendarDay tz a.1 := by
      intro x
      simp only [workoutDays, List.map_append, List.mem_append, List.map_cons, List.map_nil,
        List.mem_singleton]
    rw [updateStats_currentStreak_some tz _ b.1 a.1 a.2 hlast]
    by_cases h1 : calendarDay tz a.1 = calendarDay tz b.1 + 1
    · rw [if_pos h1]
      refine ⟨n + 1, by rw [hn]; push_cast; ring, by omega, ?_, ?_, ?_⟩
      · simp only [List.length_append, List.length_singleton] at hnlen ⊢
        omega
      · intro i hi
        rw [hdays]
        cases i with
        | zero => right; simp
        | succ j =>
          left
          have h := hin j (by omega)
          have e : calendarDay tz a.1 - ((j + 1 : Nat) : Int)
              = calendarDay tz b.1 - (j : Int) := by push_cast; omega
          rw [e]; exact h
      · rw [hdays]
        have e : calendarDay tz a.1 - ((n + 1 : Nat) : Int)
            = calendarDay tz b.1 - (n : Int) := by push_cast; omega
        rw [e]
        intro h
        rcases h with h | h
        · exact hout h
        · omega
    · rw [if_neg h1]
      by_cases h2 : calendarDay tz a.1 > calendarDay tz b.1 + 1
      · rw [if_pos h2]
        refine ⟨1, rfl, le_refl 1, by simp, ?_, ?_⟩
        · intro i hi
          have h0 : i = 0 := by omega
          subst h0
          rw [hdays]; right; simp
        · rw [hdays]
          intro h
          rcases h with h | h
          · have := hle _ h
            push_cast at this
            omega
          · push_cast at h
            omega
      · rw [if_neg h2]
        have hsame : calendarDay tz a.1 = calendarDay tz b.1 := by omega
        refine ⟨n, hn, hn1, ?_, ?_, ?_⟩
        · simp only [List.length_append, List.length_singleton] at hnlen ⊢
          omega
        · intro i hi
          rw [hdays, hsame]
          left
          exact hin i hi
        · rw [hdays, hsame]
          intro h
          rcases h with h | h
          · exact hout h
          · omega

/-- In a zone with a fixed offset: for a non-empty log applied to the initial
stats in non-decreasing calendar-day order, the final `currentStreak` is the
length of the run of
consecutive calendar days that ends at the day of the last workout and has a
workout of the log on each of its days: it is the value `streakEndingAt`
computes, every one of that many days up to the last day has a workout, and
the day just before them has none. -/
theorem applyWorkouts_currentStreak_sorted (tz : Int) (ws : List (Int × Int))
    (hne : ws ≠ [])
    (hsorted : ws.Pairwise (fun x y => calendarDay tz x.1 ≤ calendarDay tz y.1)) :
    ∃ n : Nat, (applyWorkouts tz defaultStats ws).currentStreak = (n : Int)
      ∧ n = streakEndingAt (workoutDays tz ws) (calendarDay tz (ws.getLast hne).1) ws.length
      ∧ 1 ≤ n
      ∧ (∀ i : Nat, i < n →
          ∃ w ∈ ws, calendarDay tz w.1 = calendarDay tz (ws.getLast hne).1 - (i : Int))
      ∧ ¬ ∃ w ∈ ws, calendarDay tz w.1 = calendarDay tz (ws.getLast hne).1 - (n : Int) := by
  have hsplit : ws.dropLast ++ [ws.getLast hne] = ws := List.dropLast_append_getLast hne
  have hrun := applyWorkouts_sorted_run tz ws.dropLast (ws.getLast hne)
    (by rw [hsplit]; exact hsorted)
  rw [hsplit] at hrun
  obtain ⟨_, n, hn, hn1, hnlen, hin, hout⟩ := hrun
  refine ⟨n, hn, (streakEndingAt_eq _ n _ _ hnlen hin hout).symm, hn1, ?_, ?_⟩
  · intro i hi
    exact (mem_workoutDays tz ws _).mp (hin i hi)
  · intro h
    exact hout ((mem_workoutDays tz ws _).mpr h)

/-- Workouts on 2024-01-08, 2024-01-10, 2024-01-10 (a second one),
2024-01-11 and 2024-01-12: the run ending on the last day is three days long. -/
theorem applyWorkouts_currentStreak_sorted_witness :
    [(1704672000000, 30), (1704844800000, 45), (1704880800000, 20),
      (1704931200000, 60), (1705017600000, 25)] ≠ ([] : List (Int × Int))
    ∧ List.Pairwise (fun x y => calendarDay 0 x.1 ≤ calendarDay 0 y.1)
        [((1704672000000 : Int), (30 : Int)), (1704844800000, 45), (1704880800000, 20),
          (1704931200000, 60), (1705017600000, 25)]
    ∧ (applyWorkouts 0 defaultStats
        [(1704672000000, 30), (1704844800000, 45), (1704880800000, 20),
         (1704931200000, 60), (1705017600000, 25)]).currentStreak = 3
    ∧ streakEndingAt
        (workoutDays 0 [(1704672000000, 30), (1704844800000, 45), (1704880800000, 20),
          (1704931200000, 60), (1705017600000, 25)])
        (calendarDay 0 1705017600000) 5 = 3 := by
  obtain ⟨n, hn, hs, _, _, _⟩ := applyWorkouts_currentStreak_sorted 0
    [(1704672000000, 30), (1704844800000, 45), (1704880800000, 20),
     (1704931200000, 60), (1705017600000, 25)] (by simp) (by decide)
  have h3 : n = 3 := by
    rw [hs]
    decide
  subst h3
  exact ⟨by simp, by decide, by simpa using hn, by decide⟩

/-! ## The longest streak of a log in day order -/

theorem updateStats_longestStreak_eq (tz : Int) (s : Stats) (w d : Int) :
    (User.updateStats tz s w d).longestStreak
      = max s.longestStreak (User.updateStats tz s w d).currentStreak := by
  simp only [User.updateStats]
  rw [max_def]
  split_ifs <;> omega

/-- Every day that `streakEndingAt` counts is a day of the list. -/
theorem streakEndingAt_mem (days : List Int) :
    ∀ (fuel : Nat) (d : Int) (i : Nat), i < streakEndingAt days d fuel →
      d - (i : Int) ∈ days := by
  intro fuel
  induction fuel with
  | zero =>
    intro d i hi
    simp [streakEndingAt] at hi
  | succ f ih =>
    intro d i hi
    by_cases hd : d ∈ days
    · simp only [streakEndingAt, hd, if_true] at hi
      cases i with
      | zero => simpa using hd
      | succ j =>
        have h := ih (d - 1) j (by omega)
        have e : d - ((j + 1 : Nat) : Int) = d - 1 - (j : Int) := by push_cast; ring
        rw [e]; exact h
    · simp [streakEndingAt, hd] at hi

/-- A run of `m` days of the list that ends at `d` is counted in full when
the fuel covers it. -/
theorem le_streakEndingAt (days : List Int) (m : Nat) :
    ∀ (d : Int) (fuel : Nat), m ≤ fuel →
      (∀ i : Nat, i < m → d - (i : Int) ∈ days) → m ≤ streakEndingAt days d fuel := by
  induction m with
  | zero => intro d fuel _ _; exact Nat.zero_le _
  | succ m ih =>
    intro d fuel hle hin
    cases fuel with
    | zero => omega
    | succ f =>
      have hd : d ∈ days := by simpa using hin 0 (Nat.succ_pos m)
      have hrec : m ≤ streakEndingAt days (d - 1) f := by
        apply ih (d - 1) f (by omega)
        intro i hi
        have h := hin (i + 1) (by omega)
        have e : d - 1 - (i : Int) = d - ((i + 1 : Nat) : Int) := by push_cast; ring
        rw [e]; exact h
      simp only [streakEndingAt, hd, if_true]
      omega

theorem foldr_max_le (xs : List Nat) (b : Nat) (h : ∀ x ∈ xs, x ≤ b) :
    xs.foldr max 0 ≤ b := by
  induction xs with
  | nil => exact Nat.zero_le _
  | cons x xs ih =>
    simp only [List.foldr_cons]
    exact max_le (h x (by simp)) (ih (fun y hy => h y (by simp [hy])))

theorem le_foldr_max (xs : List Nat) (x : Nat) (h : x ∈ xs) :
    x ≤ xs.foldr max 0 := by
  induction xs with
  | nil => simp at h
  | cons y ys ih =>
    simp only [List.foldr_cons]
    rcases List.mem_cons.mp h with rfl | hy
    · exact le_max_left _ _
    · exact le_trans (ih hy) (le_max_right _ _)

/-- The value of `longestStreakIn`: a length `n` that some run of days of
the list reaches and no run exceeds. -/
theorem longestStreakIn_eq (days : List Int) (n : Nat) (hlen : n ≤ days.length)
    (hex : ∃ d : Int, ∀ i : Nat, i < n → d - (i : Int) ∈ days)
    (hmax : ∀ (d : Int) (m : Nat), (∀ i : Nat, i < m → d - (i : Int) ∈ days) → m ≤ n) :
    longestStreakIn days = n := by
  apply le_antisymm
  · apply foldr_max_le
    intro x hx
    obtain ⟨d, _, rfl⟩ := List.mem_map.mp hx
    exact hmax d _ (streakEndingAt_mem days days.length d)
  · obtain ⟨d, hd⟩ := hex
    cases n with
    | zero => exact Nat.zero_le _
    | succ k =>
      have hmem : d ∈ days := by simpa using hd 0 (Nat.succ_pos k)
      have h1 := le_streakEndingAt days (k + 1) d days.length hlen hd
      have h2 : streakEndingAt days d days.length ≤ longestStreakIn days :=
        le_foldr_max _ _ (List.mem_map.mpr ⟨d, hmem, rfl⟩)
      exact le_trans h1 h2

/-- What a log in day order leaves in `longestStreak`: a length that a run
of consecutive days of the log reaches and that no such run exceeds. -/
theorem applyWorkouts_sorted_longest (tz : Int) (ws : List (Int × Int)) :
    ws.Pairwise (fun x y => calendarDay tz x.1 ≤ calendarDay tz y.1) →
    ∃ n : Nat, (applyWorkouts tz defaultStats ws).longestStreak = (n : Int)
      ∧ n ≤ ws.length
      ∧ (∃ d : Int, ∀ i : Nat, i < n → d - (i : Int) ∈ workoutDays tz ws)
      ∧ (∀ (d : Int) (m : Nat),
          (∀ i : Nat, i < m → d - (i : Int) ∈ workoutDays tz ws) → m ≤ n) := by
  induction ws using List.reverseRecOn with
  | nil =>
    intro _
    refine ⟨0, rfl, le_refl 0, ⟨0, fun i hi => absurd hi (Nat.not_lt_zero i)⟩, ?_⟩
    intro d m hm
    by_contra hlt
    have h := hm 0 (by omega)
    simp [workoutDays] at h
  | append_singleton l a ih =>
    intro hs
    have hsplit := List.pairwise_append.mp hs
    obtain ⟨n, hn, hnlen, ⟨d0, hd0⟩, hmax⟩ := ih hsplit.1
    obtain ⟨_, c, hc, _, hclen, hcin, hcout⟩ := applyWorkouts_sorted_run tz l a hs
    have hdays : ∀ x : Int, x ∈ workoutDays tz (l ++ [a])
        ↔ x ∈ workoutDays tz l ∨ x = calendarDay tz a.1 := by
      intro x
      simp only [workoutDays, List.map_append, List.mem_append, List.map_cons, List.map_nil,
        List.mem_singleton]
    have hle : ∀ x ∈ workoutDays tz (l ++ [a]), x ≤ calendarDay tz a.1 := by
      intro x hx
      rcases (hdays x).mp hx with hx | hx
      · obtain ⟨w, hw, rfl⟩ := (mem_workoutDays tz _ _).mp hx
        exact hsplit.2.2 w hw a (by simp)
      · omega
    have hlongest : (applyWorkouts tz defaultStats (l ++ [a])).longestStreak
        = ((max n c : Nat) : Int) := by
      have h1 := updateStats_longestStreak_eq tz (applyWorkouts tz defaultStats l) a.1 a.2
      rw [← applyWorkouts_append_singleton] at h1
      rw [h1, hn, hc]
      push_cast
      rfl
    refine ⟨max n c, hlongest, ?_, ?_, ?_⟩
    · simp only [List.length_append, List.length_singleton] at hclen ⊢
      exact max_le (by omega) hclen
    · by_cases hnc : c ≤ n
      · refine ⟨d0, fun i hi => ?_⟩
        rw [max_eq_left hnc] at hi
        exact (hdays _).mpr (Or.inl (hd0 i hi))
      · refine ⟨calendarDay tz a.1, fun i hi => ?_⟩
        rw [max_eq_right (by omega)] at hi
        exact hcin i hi
    · intro d m hm
      by_cases hhit : ∃ j : Nat, j < m ∧ d - (j : Int) = calendarDay tz a.1
      · obtain ⟨j, hj, hja⟩ := hhit
        have h0 := hle _ (hm 0 (by omega))
        have hd : d = calendarDay tz a.1 := by
          push_cast at h0
          omega
        have hmc : m ≤ c := by
          by_contra hlt
          have h := hm c (by omega)
          rw [hd] at h
          exact hcout h
        exact le_trans hmc (le_max_right _ _)
      · have hml : m ≤ n := by
          apply hmax d m
          intro i hi
          rcases (hdays _).mp (hm i hi) with h | h
          · exact h
          · exact absurd ⟨i, hi, h⟩ hhit
        exact le_trans hml (le_max_left _ _)

/-- In a zone with a fixed offset: for a log applied to the initial stats in
non-decreasing calendar-day order, the final `longestStreak` is the length
of the longest
run of consecutive calendar days, anywhere in the log, that has a workout on
each of its days: it is the value `longestStreakIn` computes, some run of
that many consecutive days has a workout on every day, and no run of
consecutive days with a workout on every day is longer. -/
theorem applyWorkouts_longestStreak_sorted (tz : Int) (ws : List (Int × Int))
    (hne : ws ≠ [])
    (hsorted : ws.Pairwise (fun x y => calendarDay tz x.1 ≤ calendarDay tz y.1)) :
    ∃ n : Nat, (applyWorkouts tz defaultStats ws).longestStreak = (n : Int)
      ∧ n = longestStreakIn (workoutDays tz ws)
      ∧ 1 ≤ n
      ∧ (∃ d : Int, ∀ i : Nat, i < n → ∃ w ∈ ws, calendarDay tz w.1 = d - (i : Int))
      ∧ (∀ (d : Int) (m : Nat),
          (∀ i : Nat, i < m → ∃ w ∈ ws, calendarDay tz w.1 = d - (i : Int)) → m ≤ n) := by
  obtain ⟨n, hn, hnlen, hex, hmax⟩ := applyWorkouts_sorted_longest tz ws hsorted
  have hlen : n ≤ (workoutDays tz ws).length := by simpa [workoutDays] using hnlen
  refine ⟨n, hn, (longestStreakIn_eq _ n hlen hex hmax).symm, ?_, ?_, ?_⟩
  · obtain ⟨w, hw⟩ := List.exists_mem_of_ne_nil ws hne
    apply hmax (calendarDay tz w.1) 1
    intro i hi
    have h0 : i = 0 := by omega
    subst h0
    exact (mem_workoutDays tz ws _).mpr ⟨w, hw, by simp⟩
  · obtain ⟨d, hd⟩ := hex
    exact ⟨d, fun i hi => (mem_workoutDays tz ws _).mp (hd i hi)⟩
  · intro d m hm
    exact hmax d m (fun i hi => (mem_workoutDays tz ws _).mpr (hm i hi))

/-- Workouts on 2024-01-08, 09, 10 and 11, then on 2024-01-13: the longest
run is four days long, while the streak at the end is 1. -/
theorem applyWorkouts_longestStreak_sorted_witness :
    [(1704672000000, 30), (1704758400000, 45), (1704844800000, 20),
      (1704931200000, 60), (1705104000000, 25)] ≠ ([] : List (Int × Int))
    ∧ List.Pairwise (fun x y => calendarDay 0 x.1 ≤ calendarDay 0 y.1)
        [((1704672000000 : Int), (30 : Int)), (1704758400000, 45), (1704844800000, 20),
          (1704931200000, 60), (1705104000000, 25)]
    ∧ (applyWorkouts 0 defaultStats
        [(1704672000000, 30), (1704758400000, 45), (1704844800000, 20),
         (1704931200000, 60), (1705104000000, 25)]).longestStreak = 4
    ∧ longestStreakIn
        (workoutDays 0 [(1704672000000, 30), (1704758400000, 45), (1704844800000, 20),
          (1704931200000, 60), (1705104000000, 25)]) = 4 := by
  obtain ⟨n, hn, hs, _, _, _⟩ := applyWorkouts_longestStreak_sorted 0
    [(1704672000000, 30), (1704758400000, 45), (1704844800000, 20),
     (1704931200000, 60), (1705104000000, 25)] (by simp) (by decide)
  have h4 : n = 4 := by
    rw [hs]
    decide
  subst h4
  exact ⟨by simp, by decide, by simpa using hn, by decide⟩

/-! ## Totals and invariants of any log -/

/-- The counters after a log, from any starting stats. -/
theorem applyWorkouts_counters_from (tz : Int) (s : Stats) (ws : List (Int × Int)) :
    (applyWorkouts tz s ws).totalWorkouts = s.totalWorkouts + (ws.length : Int)
    ∧ (applyWorkouts tz s ws).totalDuration = s.totalDuration + (ws.map Prod.snd).sum := by
  induction ws using List.reverseRecOn with
  | nil => simp [applyWorkouts]
  | append_singleton l a ih =>
    rw [applyWorkouts_append_singleton]
    obtain ⟨h1, h2⟩ := ih
    constructor
    · show (applyWorkouts tz s l).totalWorkouts + 1 = _
      rw [h1]
      simp only [List.length_append, List.length_singleton]
      push_cast
      ring
    · show (applyWorkouts tz s l).totalDuration + a.2 = _
      rw [h2]
      simp only [List.map_append, List.map_cons, List.map_nil, List.sum_append,
        List.sum_cons, List.sum_nil]
      ring

theorem sum_durations_nonneg (ws : List (Int × Int)) (h : ∀ w ∈ ws, 1 ≤ w.2) :
    0 ≤ (ws.map Prod.snd).sum := by
  induction ws with
  | nil => simp
  | cons a l ih =>
    have ha := h a (by simp)
    have hl := ih (fun w hw => h w (by simp [hw]))
    simp only [List.map_cons, List.sum_cons]
    omega

/-- C12: for a log of `n` workouts with durations `d1 .. dn`, applied to the
initial stats in any date order, the final `totalWorkouts` is `n` and the
final `totalDuration` is `d1 + ... + dn`. -/
theorem applyWorkouts_totals (tz : Int) (ws : List (Int × Int)) :
    (applyWorkouts tz defaultStats ws).totalWorkouts = (ws.length : Int)
    ∧ (applyWorkouts tz defaultStats ws).totalDuration = (ws.map Prod.snd).sum := by
  have h := applyWorkouts_counters_from tz defaultStats ws
  simpa [defaultStats] using h

/-- C13: every stats record reached from the initial stats by any number of
`updateStats` calls with durations in 1..600 has
`currentStreak <= longestStreak`, `totalDuration >= 0` and
`totalWorkouts >= 0`. -/
theorem applyWorkouts_invariant (tz : Int) (ws : List (Int × Int))
    (hdur : ∀ w ∈ ws, 1 ≤ w.2 ∧ w.2 ≤ 600) :
    (applyWorkouts tz defaultStats ws).currentStreak
        ≤ (applyWorkouts tz defaultStats ws).longestStreak
    ∧ (applyWorkouts tz defaultStats ws).totalDuration ≥ 0
    ∧ (applyWorkouts tz defaultStats ws).totalWorkouts ≥ 0 := by
  obtain ⟨hw, hd⟩ := applyWorkouts_counters_from tz defaultStats ws
  refine ⟨?_, ?_, ?_⟩
  · rcases List.eq_nil_or_concat ws with rfl | ⟨l, a, rfl⟩
    · simp [applyWorkouts, defaultStats]
    · rw [List.concat_eq_append, applyWorkouts_append_singleton, updateStats_longestStreak_eq]
      exact le_max_right _ _
  · rw [hd]
    have := sum_durations_nonneg ws (fun w hw => (hdur w hw).1)
    simpa [defaultStats] using this
  · rw [hw]
    simp [defaultStats]

/-- Three workouts in a date order that is not ascending (2024-01-10,
2024-01-08, 2024-01-09), durations 30, 600 and 1. -/
theorem applyWorkouts_invariant_witness :
    (∀ w ∈ [((1704844800000 : Int), (30 : Int)), (1704672000000, 600), (1704758400000, 1)],
        1 ≤ w.2 ∧ w.2 ≤ 600)
    ∧ (applyWorkouts 0 defaultStats
        [(1704844800000, 30), (1704672000000, 600), (1704758400000, 1)]).currentStreak
      ≤ (applyWorkouts 0 defaultStats
        [(1704844800000, 30), (1704672000000, 600), (1704758400000, 1)]).longestStreak
    ∧ (applyWorkouts 0 defaultStats
        [(1704844800000, 30), (1704672000000, 600), (1704758400000, 1)]).totalDuration ≥ 0
    ∧ (applyWorkouts 0 defaultStats
        [(1704844800000, 30), (1704672000000, 600), (1704758400000, 1)]).totalWorkouts ≥ 0 :=
  ⟨by decide,
   applyWorkouts_invariant 0
     [(1704844800000, 30), (1704672000000, 600), (1704758400000, 1)] (by decide)⟩

/-- C14: `updateStats` compares the two dates at calendar-day granularity.
Two workout timestamps of the same calendar day are normalised to the same
midnight and give the same `currentStreak` and `longestStreak`; and
replacing the stored `lastWorkoutDate` by another timestamp of its calendar
day changes neither. -/
theorem updateStats_day_granularity (tz : Int) (s : Stats) (t1 t2 d : Int)
    (hday : calendarDay tz t1 = calendarDay tz t2) :
    setHoursZero tz t1 = setHoursZero tz t2
    ∧ (User.updateStats tz s t1 d).currentStreak = (User.updateStats tz s t2 d).currentStreak
    ∧ (User.updateStats tz s t1 d).longestStreak = (User.updateStats tz s t2 d).longestStreak
    ∧ (s.lastWorkoutDate = some t1 → ∀ w : Int,
        (User.updateStats tz { s with lastWorkoutDate := some t2 } w d).currentStreak
          = (User.updateStats tz s w d).currentStreak
        ∧ (User.updateStats tz { s with lastWorkoutDate := some t2 } w d).longestStreak
          = (User.updateStats tz s w d).longestStreak) := by
  have hmid : setHoursZero tz t1 = setHoursZero tz t2 := by
    rw [setHoursZero_eq, setHoursZero_eq, hday]
  have hcur : (User.updateStats tz s t1 d).currentStreak
      = (User.updateStats tz s t2 d).currentStreak := by
    simp only [User.updateStats, hmid]
  refine ⟨hmid, hcur, ?_, ?_⟩
  · rw [updateStats_longestStreak_eq, updateStats_longestStreak_eq, hcur]
  · intro hl w
    have hc : (User.updateStats tz { s with lastWorkoutDate := some t2 } w d).currentStreak
        = (User.updateStats tz s w d).currentStreak := by
      simp only [User.updateStats, hl, hmid]
    refine ⟨hc, ?_⟩
    rw [updateStats_longestStreak_eq, updateStats_longestStreak_eq, hc]

/-- Stats with the last workout on 2024-01-10 at 07:00, or at 18:30; a new
workout on 2024-01-11 at 07:00, or at 18:30: the streak goes from 2 to 3 in
every combination. -/
theorem updateStats_day_granularity_witness :
    calendarDay 0 1704956400000 = calendarDay 0 1704997800000
    ∧ (User.updateStats 0 ⟨3, 90, 2, 5, some 1704870000000⟩ 1704956400000 30).currentStreak
      = (User.updateStats 0 ⟨3, 90, 2, 5, some 1704870000000⟩ 1704997800000 30).currentStreak
    ∧ calendarDay 0 1704870000000 = calendarDay 0 1704911400000
    ∧ (User.updateStats 0 ⟨3, 90, 2, 5, some 1704911400000⟩ 1704956400000 30).currentStreak
      = (User.updateStats 0 ⟨3, 90, 2, 5, some 1704870000000⟩ 1704956400000 30).currentStreak :=
  ⟨by decide,
   (updateStats_day_granularity 0 ⟨3, 90, 2, 5, some 1704870000000⟩ 1704956400000
     1704997800000 30 (by decide)).2.1,
   by decide,
   ((updateStats_day_granularity 0 ⟨3, 90, 2, 5, some 1704870000000⟩ 1704870000000
     1704911400000 30 (by decide)).2.2.2 rfl 1704956400000).1⟩

/-! ## The stage `$group` -/

theorem groupStage_append_singleton {κ : Type} [DecidableEq κ] (key : Workout → κ)
    (l : List Workout) (w : Workout) :
    groupStage key (l ++ [w]) = groupInsert (key w) w (groupStage key l) := by
  simp [groupStage, List.foldl_append]

/-- The keys after one step of `$group`: a key that is new goes to the end. -/
theorem groupInsert_keys {κ : Type} [DecidableEq κ] (k : κ) (w : Workout)
    (acc : List (κ × List Workout)) :
    (groupInsert k w acc).map Prod.fst
      = if k ∈ acc.map Prod.fst then acc.map Prod.fst else acc.map Prod.fst ++ [k] := by
  induction acc with
  | nil => simp [groupInsert]
  | cons e rest ih =>
    by_cases h : k = e.1
    · simp [groupInsert, h]
    · have h2 : ¬ e.1 = k := fun h3 => h h3.symm
      by_cases hm : k ∈ rest.map Prod.fst
      · simp only [groupInsert, if_neg h, List.map_cons, ih, if_pos hm]
        rw [if_pos (List.mem_cons_of_mem _ hm)]
      · simp only [groupInsert, if_neg h, List.map_cons, ih, if_neg hm]
        rw [if_neg (by simp only [List.mem_cons, not_or]; exact ⟨h, hm⟩)]
        rfl

/-- The groups after one step of `$group`, when the keys are distinct: the
group of the key `k` is new or has the document `w` added, and the other
groups are as before. -/
theorem mem_groupInsert {κ : Type} [DecidableEq κ] (k : κ) (w : Workout)
    (acc : List (κ × List Workout)) (hnd : (acc.map Prod.fst).Nodup)
    (e : κ × List Workout) (he : e ∈ groupInsert k w acc) :
    (e.1 = k ∧ ((e.2 = [w] ∧ k ∉ acc.map Prod.fst)
        ∨ ∃ g, (k, g) ∈ acc ∧ e.2 = g ++ [w]))
    ∨ (e.1 ≠ k ∧ e ∈ acc) := by
  induction acc with
  | nil =>
    simp only [groupInsert, List.mem_singleton] at he
    subst he
    exact Or.inl ⟨rfl, Or.inl ⟨rfl, by simp⟩⟩
  | cons e0 rest ih =>
    have hnd0 := List.nodup_cons.mp hnd
    by_cases h : k = e0.1
    · simp only [groupInsert, if_pos h, List.mem_cons] at he
      rcases he with he | he
      · subst he
        refine Or.inl ⟨h.symm, Or.inr ⟨e0.2, ?_, rfl⟩⟩
        rw [h]
        exact List.mem_cons_self _ _
      · have hne : e.1 ≠ k := by
          intro hk
          apply hnd0.1
          rw [← h, ← hk]
          exact List.mem_map_of_mem Prod.fst he
        exact Or.inr ⟨hne, List.mem_cons_of_mem _ he⟩
    · simp only [groupInsert, if_neg h, List.mem_cons] at he
      rcases he with he | he
      · subst he
        exact Or.inr ⟨fun hk => h hk.symm, List.mem_cons_self _ _⟩
      · rcases ih hnd0.2 he with ⟨hk, hcase⟩ | ⟨hk, hmem⟩
        · refine Or.inl ⟨hk, ?_⟩
          rcases hcase with ⟨h1, h2⟩ | ⟨g, hg, h2⟩
          · refine Or.inl ⟨h1, ?_⟩
            simp only [List.map_cons, List.mem_cons, not_or]
            exact ⟨h, h2⟩
          · exact Or.inr ⟨g, List.mem_cons_of_mem _ hg, h2⟩
        · exact Or.inr ⟨hk, List.mem_cons_of_mem _ hmem⟩

/-- What `$group` returns: the keys of its groups are distinct, they are the
keys of the documents, and the members of a group are the documents with
its key, in their order. -/
theorem groupStage_spec {κ : Type} [DecidableEq κ] (key : Workout → κ) (docs : List Workout) :
    ((groupStage key docs).map Prod.fst).Nodup
    ∧ (∀ k : κ, k ∈ (groupStage key docs).map Prod.fst ↔ ∃ w ∈ docs, key w = k)
    ∧ (∀ e ∈ groupStage key docs, e.2 = docs.filter (fun w => decide (key w = e.1))) := by
  induction docs using List.reverseRecOn with
  | nil =>
    refine ⟨by simp [groupStage], by simp [groupStage], ?_⟩
    intro e he
    simp [groupStage] at he
  | append_singleton l w ih =>
    obtain ⟨hnd, hkeys, hmem⟩ := ih
    rw [groupStage_append_singleton]
    have hk := groupInsert_keys (key w) w (groupStage key l)
    refine ⟨?_, ?_, ?_⟩
    · rw [hk]
      by_cases hin : key w ∈ (groupStage key l).map Prod.fst
      · rw [if_pos hin]; exact hnd
      · rw [if_neg hin]
        apply List.Nodup.append hnd (List.nodup_singleton _)
        intro x hx hx2
        rw [List.mem_singleton] at hx2
        exact hin (hx2 ▸ hx)
    · intro k
      rw [hk]
      by_cases hin : key w ∈ (groupStage key l).map Prod.fst
      · rw [if_pos hin, hkeys k]
        constructor
        · rintro ⟨x, hx, hxk⟩
          exact ⟨x, List.mem_append_left _ hx, hxk⟩
        · rintro ⟨x, hx, hxk⟩
          rcases List.mem_append.mp hx with hx | hx
          · exact ⟨x, hx, hxk⟩
          · rw [List.mem_singleton] at hx
            subst hx
            rw [← hxk]
            exact (hkeys _).mp hin
      · rw [if_neg hin, List.mem_append, hkeys k, List.mem_singleton]
        constructor
        · rintro (⟨x, hx, hxk⟩ | rfl)
          · exact ⟨x, List.mem_append_left _ hx, hxk⟩
          · exact ⟨w, by simp, rfl⟩
        · rintro ⟨x, hx, hxk⟩
          rcases List.mem_append.mp hx with hx | hx
          · exact Or.inl ⟨x, hx, hxk⟩
          · rw [List.mem_singleton] at hx
            subst hx
            exact Or.inr hxk.symm
    · intro e he
      rw [List.filter_append]
      rcases mem_groupInsert (key w) w (groupStage key l) hnd e he with
        ⟨hek, hcase⟩ | ⟨hek, hel⟩
      · rcases hcase with ⟨h1, h2⟩ | ⟨g, hg, h2⟩
        · have hnone : l.filter (fun x => decide (key x = e.1)) = [] := by
            rw [List.filter_eq_nil_iff]
            intro x hx hxk
            apply h2
            rw [hkeys]
            refine ⟨x, hx, ?_⟩
            rw [← hek]
            simpa using hxk
          rw [hnone, h1]
          simp [hek]
        · have hg2 := hmem (key w, g) hg
          simp only at hg2
          rw [h2, hg2, hek]
          simp
      · rw [hmem e hel]
        have : ¬ key w = e.1 := fun h => hek h.symm
        simp [this]

/-- The members of the groups are the documents: a sum taken group by group
is the sum over the documents. -/
theorem groupInsert_sum {κ : Type} [DecidableEq κ] (f : Workout → Int) (k : κ) (w : Workout)
    (acc : List (κ × List Workout)) :
    ((groupInsert k w acc).map (fun e => (e.2.map f).sum)).sum
      = (acc.map (fun e => (e.2.map f).sum)).sum + f w := by
  induction acc with
  | nil => simp [groupInsert]
  | cons e rest ih =>
    by_cases h : k = e.1
    · simp only [groupInsert, if_pos h, List.map_cons, List.sum_cons, List.map_append,
        List.sum_append, List.map_nil, List.sum_nil]
      ring
    · simp only [groupInsert, if_neg h, List.map_cons, List.sum_cons, ih]
      ring

theorem groupStage_sum {κ : Type} [DecidableEq κ] (f : Workout → Int) (key : Workout → κ)
    (docs : List Workout) :
    ((groupStage key docs).map (fun e => (e.2.map f).sum)).sum = (docs.map f).sum := by
  induction docs using List.reverseRecOn with
  | nil => simp [groupStage]
  | append_singleton l w ih =>
    rw [groupStage_append_singleton, groupInsert_sum, ih]
    simp

/-- The group of `_id: null`: no group for no document, and one group with
all the documents otherwise. -/
theorem groupStage_const (docs : List Workout) :
    groupStage (fun _ => ()) docs = if docs = [] then [] else [((), docs)] := by
  induction docs using List.reverseRecOn with
  | nil => simp [groupStage]
  | append_singleton l w ih =>
    rw [groupStage_append_singleton, ih]
    by_cases hl : l = []
    · subst hl; simp [groupInsert]
    · simp [hl, groupInsert]

/-! ## The accumulators -/

theorem sumAcc_some (g : List Workout) (f : Workout → Int) :
    sumAcc (g.map (fun w => some (f w))) = (g.map f).sum := by
  induction g with
  | nil => simp [sumAcc]
  | cons a l ih =>
    simp only [sumAcc, List.map_cons, List.reduceOption_cons_of_some, List.sum_cons] at ih ⊢
    rw [ih]

theorem sumAcc_filterMap (g : List Workout) (f : Workout → Option Int) :
    sumAcc (g.map f) = (g.filterMap f).sum := by
  induction g with
  | nil => simp [sumAcc]
  | cons a l ih =>
    simp only [sumAcc, List.map_cons] at ih ⊢
    cases h : f a with
    | none => simp [List.reduceOption_cons_of_none, List.filterMap_cons, h, ih]
    | some v => simp [List.reduceOption_cons_of_some, List.filterMap_cons, h, ih]

theorem reduceOption_map_eq_filterMap (g : List Workout) (f : Workout → Option Int) :
    (g.map f).reduceOption = g.filterMap f := by
  induction g with
  | nil => simp
  | cons a l ih =>
    cases h : f a with
    | none => simp [List.reduceOption_cons_of_none, List.filterMap_cons, h, ih]
    | some v => simp [List.reduceOption_cons_of_some, List.filterMap_cons, h, ih]

theorem avgAcc_some (g : List Workout) (f : Workout → Int) (hne : g ≠ []) :
    avgAcc (g.map (fun w => some (f w)))
      = some ((((g.map f).sum : Int) : Rat) / ((g.length : Nat) : Rat)) := by
  have h : (g.map (fun w => some (f w))).reduceOption = g.map f := by
    rw [reduceOption_map_eq_filterMap]
    clear hne
    induction g with
    | nil => rfl
    | cons a l ih => simp [List.filterMap_cons, ih]
  unfold avgAcc
  rw [h, if_neg (by simpa using hne)]
  simp

/-! ## `getUserStats` -/

/-- The object that `getUserStats` returns, by the matching documents. -/
theorem getUserStats_eq (collection : List Workout) (userId : Nat)
    (startDate endDate : Option Int) :
    Workout.getUserStats collection userId startDate endDate
      = if collection.filter (matchStage userId startDate endDate) = [] then
          { totalWorkouts := 0
            totalDuration := 0
            totalCalories := 0
            avgDuration := some 0
            avgCalories := some 0 }
        else
          { totalWorkouts := ((collection.filter (matchStage userId startDate endDate)).length : Int)
            totalDuration := sumAcc
              ((collection.filter (matchStage userId startDate endDate)).map
                (fun w => some w.duration))
            totalCalories := sumAcc
              ((collection.filter (matchStage userId startDate endDate)).map
                (fun w => w.caloriesBurned))
            avgDuration := avgAcc
              ((collection.filter (matchStage userId startDate endDate)).map
                (fun w => some w.duration))
            avgCalories := avgAcc
              ((collection.filter (matchStage userId startDate endDate)).map
                (fun w => w.caloriesBurned)) } := by
  unfold Workout.getUserStats
  simp only [groupStage_const]
  split_ifs with h <;> simp

theorem length_filterMap_eq (g : List Workout) (f : Workout → Option Int) :
    (g.filterMap f).length = (g.filter (fun w => (f w).isSome)).length := by
  induction g with
  | nil => rfl
  | cons a l ih =>
    cases h : f a with
    | none => simp [List.filterMap_cons, List.filter_cons, h, ih]
    | some v => simp [List.filterMap_cons, List.filter_cons, h, ih]

/-- The totals of `getUserStats` are the count and the sums of the matching
documents, also when there is none. -/
theorem getUserStats_totals (collection : List Workout) (userId : Nat)
    (startDate endDate : Option Int) :
    (Workout.getUserStats collection userId startDate endDate).totalWorkouts
      = ((collection.filter (matchStage userId startDate endDate)).length : Int)
    ∧ (Workout.getUserStats collection userId startDate endDate).totalDuration
      = ((collection.filter (matchStage userId startDate endDate)).map
          (fun w => w.duration)).sum
    ∧ (Workout.getUserStats collection userId startDate endDate).totalCalories
      = ((collection.filter (matchStage userId startDate endDate)).filterMap
          (fun w => w.caloriesBurned)).sum := by
  rw [getUserStats_eq]
  split_ifs with h
  · simp [h]
  · exact ⟨rfl, sumAcc_some _ _, sumAcc_filterMap _ _⟩

/-- The match stage lets a document through only if it passes again: the
result on the matching documents alone is the result on the collection. -/
theorem getUserStats_filter (collection : List Workout) (userId : Nat)
    (startDate endDate : Option Int) :
    Workout.getUserStats (collection.filter (matchStage userId startDate endDate)) userId
        startDate endDate
      = Workout.getUserStats collection userId startDate endDate := by
  have h : (collection.filter (matchStage userId startDate endDate)).filter
      (matchStage userId startDate endDate)
      = collection.filter (matchStage userId startDate endDate) := by
    rw [List.filter_filter]
    apply List.filter_congr
    intro x _
    simp
  rw [getUserStats_eq, getUserStats_eq, h]

/-- C15: when no document of the collection matches, `getUserStats` returns
the object with the five fields at zero (none of them undefined or `null`),
and `getWorkoutFrequency` returns the empty series. -/
theorem aggregations_of_no_match (collection : List Workout) (userId : Nat)
    (startDate endDate : Option Int) (now days : Int)
    (hstats : ∀ w ∈ collection, matchStage userId startDate endDate w = false)
    (hfreq : ∀ w ∈ collection, ¬ (w.user = userId ∧ now - days * msPerDay ≤ w.date)) :
    Workout.getUserStats collection userId startDate endDate
      = { totalWorkouts := 0
          totalDuration := 0
          totalCalories := 0
          avgDuration := some 0
          avgCalories := some 0 }
    ∧ Workout.getWorkoutFrequency collection now userId days = [] := by
  constructor
  · have h : collection.filter (matchStage userId startDate endDate) = [] := by
      rw [List.filter_eq_nil_iff]
      intro w hw
      simp [hstats w hw]
    rw [getUserStats_eq, if_pos h]
  · have h : collection.filter
        (fun w => decide (w.user = userId) && decide (now - days * msPerDay ≤ w.date)) = [] := by
      rw [List.filter_eq_nil_iff]
      intro w hw hp
      apply hfreq w hw
      simpa using hp
    unfold Workout.getWorkoutFrequency
    simp only [h]
    rfl

/-- The scenario of the specification for C15: a window of 30 days before
2024-01-11 in which user 1 has no workout (one of 2023-11-01, and one of
another user on 2024-01-10). -/
theorem aggregations_of_no_match_witness :
    (∀ w ∈ [(⟨1, 40, 1698796800000, some 300, Category.cardio⟩ : Workout),
          ⟨2, 30, 1704844800000, none, Category.other⟩],
        matchStage 1 (some 1702339200000) (some 1704931200000) w = false)
    ∧ (∀ w ∈ [(⟨1, 40, 1698796800000, some 300, Category.cardio⟩ : Workout),
          ⟨2, 30, 1704844800000, none, Category.other⟩],
        ¬ (w.user = 1 ∧ 1704931200000 - 30 * msPerDay ≤ w.date))
    ∧ Workout.getUserStats
        [⟨1, 40, 1698796800000, some 300, Category.cardio⟩,
          ⟨2, 30, 1704844800000, none, Category.other⟩]
        1 (some 1702339200000) (some 1704931200000)
      = ⟨0, 0, 0, some 0, some 0⟩
    ∧ Workout.getWorkoutFrequency
        [⟨1, 40, 1698796800000, some 300, Category.cardio⟩,
          ⟨2, 30, 1704844800000, none, Category.other⟩]
        1704931200000 1 30 = [] :=
  ⟨by decide, by decide,
   aggregations_of_no_match
     [⟨1, 40, 1698796800000, some 300, Category.cardio⟩,
       ⟨2, 30, 1704844800000, none, Category.other⟩]
     1 (some 1702339200000) (some 1704931200000) 1704931200000 30 (by decide) (by decide)⟩

/-- C16: when some document matches, `getUserStats` returns the number of
matching documents, the sum of their durations, the quotient of the two as
`avgDuration`, the sum of `caloriesBurned` over the documents that have it,
and as `avgCalories` that sum divided by the number of documents that have
it; when no matching document has it, there is nothing to divide by and
`avgCalories` is `null`. -/
theorem getUserStats_of_match (collection : List Workout) (userId : Nat)
    (startDate endDate : Option Int) (m : List Workout)
    (hm : m = collection.filter (matchStage userId startDate endDate))
    (hne : m ≠ []) :
    (Workout.getUserStats collection userId startDate endDate).totalWorkouts = (m.length : Int)
    ∧ (Workout.getUserStats collection userId startDate endDate).totalDuration
        = (m.map (fun w => w.duration)).sum
    ∧ (Workout.getUserStats collection userId startDate endDate).avgDuration
        = some (((Workout.getUserStats collection userId startDate endDate).totalDuration : Rat)
            / ((Workout.getUserStats collection userId startDate endDate).totalWorkouts : Rat))
    ∧ (Workout.getUserStats collection userId startDate endDate).totalCalories
        = (m.filterMap (fun w => w.caloriesBurned)).sum
    ∧ ((m.filter (fun w => w.caloriesBurned.isSome)).length ≠ 0 →
        (Workout.getUserStats collection userId startDate endDate).avgCalories
          = some ((((m.filterMap (fun w => w.caloriesBurned)).sum : Int) : Rat)
              / (((m.filter (fun w => w.caloriesBurned.isSome)).length : Nat) : Rat)))
    ∧ ((m.filter (fun w => w.caloriesBurned.isSome)).length = 0 →
        (Workout.getUserStats collection userId startDate endDate).avgCalories = none) := by
  subst hm
  have hlen := length_filterMap_eq (collection.filter (matchStage userId startDate endDate))
    (fun w => w.caloriesBurned)
  rw [getUserStats_eq, if_neg hne]
  refine ⟨rfl, sumAcc_some _ _, ?_, sumAcc_filterMap _ _, ?_, ?_⟩
  · simp only [avgAcc_some _ _ hne, sumAcc_some]
    simp
  · intro hk
    simp only [avgAcc, reduceOption_map_eq_filterMap]
    rw [if_neg, hlen]
    intro h0
    apply hk
    rw [← hlen, h0]
    rfl
  · intro hk
    simp only [avgAcc, reduceOption_map_eq_filterMap]
    rw [if_pos]
    apply List.eq_nil_of_length_eq_zero
    rw [hlen]
    exact hk

/-- Three workouts of user 1, two of them with calories (200 and 50), and
one of another user: three workouts, 95 minutes, 250 calories, 125 on
average. -/
theorem getUserStats_of_match_witness :
    [(⟨1, 30, 1704844800000, some 200, Category.cardio⟩ : Workout),
      ⟨1, 45, 1704880800000, none, Category.strength⟩,
      ⟨1, 20, 1704672000000, some 50, Category.cardio⟩]
      = List.filter (matchStage 1 none none)
        [⟨1, 30, 1704844800000, some 200, Category.cardio⟩,
          ⟨1, 45, 1704880800000, none, Category.strength⟩,
          ⟨2, 60, 1704844800000, some 100, Category.cardio⟩,
          ⟨1, 20, 1704672000000, some 50, Category.cardio⟩]
    ∧ (Workout.getUserStats
        [⟨1, 30, 1704844800000, some 200, Category.cardio⟩,
          ⟨1, 45, 1704880800000, none, Category.strength⟩,
          ⟨2, 60, 1704844800000, some 100, Category.cardio⟩,
          ⟨1, 20, 1704672000000, some 50, Category.cardio⟩] 1 none none).totalWorkouts = 3
    ∧ (Workout.getUserStats
        [⟨1, 30, 1704844800000, some 200, Category.cardio⟩,
          ⟨1, 45, 1704880800000, none, Category.strength⟩,
          ⟨2, 60, 1704844800000, some 100, Category.cardio⟩,
          ⟨1, 20, 1704672000000, some 50, Category.cardio⟩] 1 none none).totalDuration = 95
    ∧ (Workout.getUserStats
        [⟨1, 30, 1704844800000, some 200, Category.cardio⟩,
          ⟨1, 45, 1704880800000, none, Category.strength⟩,
          ⟨2, 60, 1704844800000, some 100, Category.cardio⟩,
          ⟨1, 20, 1704672000000, some 50, Category.cardio⟩] 1 none none).totalCalories = 250
    ∧ (Workout.getUserStats
        [⟨1, 30, 1704844800000, some 200, Category.cardio⟩,
          ⟨1, 45, 1704880800000, none, Category.strength⟩,
          ⟨2, 60, 1704844800000, some 100, Category.cardio⟩,
          ⟨1, 20, 1704672000000, some 50, Category.cardio⟩] 1 none none).avgCalories
        = some 125 := by
  have h := getUserStats_of_match
    [⟨1, 30, 1704844800000, some 200, Category.cardio⟩,
      ⟨1, 45, 1704880800000, none, Category.strength⟩,
      ⟨2, 60, 1704844800000, some 100, Category.cardio⟩,
      ⟨1, 20, 1704672000000, some 50, Category.cardio⟩] 1 none none
    [⟨1, 30, 1704844800000, some 200, Category.cardio⟩,
      ⟨1, 45, 1704880800000, none, Category.strength⟩,
      ⟨1, 20, 1704672000000, some 50, Category.cardio⟩] (by decide) (by simp)
  refine ⟨by decide, ?_, ?_, ?_, ?_⟩
  · rw [h.1]; rfl
  · rw [h.2.1]; rfl
  · rw [h.2.2.2.1]; rfl
  · rw [h.2.2.2.2.1 (by decide)]
    norm_num [List.filterMap_cons]

/-! ## `getWorkoutFrequency` -/

/-- The groups of `$group` have members: each key comes from a document. -/
theorem groupStage_ne_nil {κ : Type} [DecidableEq κ] (key : Workout → κ) (docs : List Workout)
    (e : κ × List Workout) (he : e ∈ groupStage key docs) : e.2 ≠ [] := by
  obtain ⟨_, hkeys, hmem⟩ := groupStage_spec key docs
  obtain ⟨w, hw, hwk⟩ := (hkeys e.1).mp (List.mem_map_of_mem Prod.fst he)
  rw [hmem e he]
  intro h
  rw [List.filter_eq_nil_iff] at h
  exact h w hw (by simpa using hwk)

/-- The series of `getWorkoutFrequency` has the entries of its `$group`
stage: `$sort` only reorders them. -/
theorem getWorkoutFrequency_perm (collection : List Workout) (now : Int) (userId : Nat)
    (days : Int) :
    (Workout.getWorkoutFrequency collection now userId days).Perm
      ((groupStage (fun w => dateToString w.date)
        (collection.filter
          (fun w => decide (w.user = userId) && decide (now - days * msPerDay ≤ w.date)))).map
        (fun g =>
          ({ _id := g.1
             count := (g.2.length : Int)
             totalDuration := sumAcc (g.2.map (fun w => some w.duration))
             totalCalories := sumAcc (g.2.map (fun w => w.caloriesBurned)) } :
            FrequencyEntry))) := by
  unfold Workout.getWorkoutFrequency
  exact List.perm_insertionSort _ _

theorem filter_filter_key {κ : Type} [DecidableEq κ] (collection : List Workout)
    (p : Workout → Prop) [DecidablePred p] (key : Workout → κ) (k : κ) :
    (collection.filter (fun w => decide (p w))).filter (fun w => decide (key w = k))
      = collection.filter (fun w => decide (p w ∧ key w = k)) := by
  rw [List.filter_filter]
  apply List.filter_congr
  intro x _
  by_cases h1 : p x <;> by_cases h2 : key x = k <;> simp [h1, h2]

/-- C17: the series of `getWorkoutFrequency` is in strictly ascending order
of day, so it has at most one entry for a day; it has an entry for a day
exactly when a matching document (of the user, dated `startDate` or later)
falls on that day; and the `count`, `totalDuration` and `totalCalories` of an
entry are the number, the sum of the durations and the sum of the calories
of the matching documents of its day. -/
theorem getWorkoutFrequency_series (collection : List Workout) (now : Int) (userId : Nat)
    (days : Int) :
    ((Workout.getWorkoutFrequency collection now userId days).map (fun e => e._id)).Sorted
        (fun a b => a < b)
    ∧ (∀ d : Int,
        d ∈ (Workout.getWorkoutFrequency collection now userId days).map (fun e => e._id)
        ↔ ∃ w ∈ collection, (w.user = userId ∧ now - days * msPerDay ≤ w.date)
            ∧ dateToString w.date = d)
    ∧ (∀ e ∈ Workout.getWorkoutFrequency collection now userId days,
        e.count = ((collection.filter (fun w => decide
            ((w.user = userId ∧ now - days * msPerDay ≤ w.date)
              ∧ dateToString w.date = e._id))).length : Int)
        ∧ e.totalDuration = ((collection.filter (fun w => decide
            ((w.user = userId ∧ now - days * msPerDay ≤ w.date)
              ∧ dateToString w.date = e._id))).map (fun w => w.duration)).sum
        ∧ e.totalCalories = ((collection.filter (fun w => decide
            ((w.user = userId ∧ now - days * msPerDay ≤ w.date)
              ∧ dateToString w.date = e._id))).filterMap (fun w => w.caloriesBurned)).sum) := by
  have hperm := getWorkoutFrequency_perm collection now userId days
  have hfilter : collection.filter
      (fun w => decide (w.user = userId) && decide (now - days * msPerDay ≤ w.date))
      = collection.filter
        (fun w => decide (w.user = userId ∧ now - days * msPerDay ≤ w.date)) := by
    apply List.filter_congr
    intro x _
    simp
  rw [hfilter] at hperm
  obtain ⟨hnd, hkeys, hmem⟩ := groupStage_spec (fun w => dateToString w.date)
    (collection.filter (fun w => decide (w.user = userId ∧ now - days * msPerDay ≤ w.date)))
  have hids := hperm.map (fun e => e._id)
  rw [List.map_map] at hids
  have hfst : ((fun e : FrequencyEntry => e._id) ∘ fun g : Int × List Workout =>
      ({ _id := g.1
         count := (g.2.length : Int)
         totalDuration := sumAcc (g.2.map (fun w => some w.duration))
         totalCalories := sumAcc (g.2.map (fun w => w.caloriesBurned)) } : FrequencyEntry))
      = Prod.fst := by
    funext g
    rfl
  rw [hfst] at hids
  refine ⟨?_, ?_, ?_⟩
  · have hle : ((Workout.getWorkoutFrequency collection now userId days).map
        (fun e => e._id)).Sorted (fun a b => a ≤ b) := by
      haveI : IsTotal FrequencyEntry (fun a b => a._id ≤ b._id) :=
        ⟨fun a b => le_total a._id b._id⟩
      haveI : IsTrans FrequencyEntry (fun a b => a._id ≤ b._id) :=
        ⟨fun a b c hab hbc => le_trans hab hbc⟩
      unfold Workout.getWorkoutFrequency
      exact List.pairwise_map.mpr
        (List.sorted_insertionSort (fun a b : FrequencyEntry => a._id ≤ b._id) _)
    exact hle.lt_of_le (hids.nodup_iff.mpr hnd)
  · intro d
    rw [hids.mem_iff, hkeys d]
    constructor
    · rintro ⟨w, hw, hwd⟩
      rw [List.mem_filter] at hw
      exact ⟨w, hw.1, by simpa using hw.2, hwd⟩
    · rintro ⟨w, hw, hp, hwd⟩
      exact ⟨w, List.mem_filter.mpr ⟨hw, by simpa using hp⟩, hwd⟩
  · intro e he
    obtain ⟨g, hg, rfl⟩ := List.mem_map.mp (hperm.mem_iff.mp he)
    have hg2 := hmem g hg
    rw [filter_filter_key] at hg2
    simp only
    rw [← hg2]
    exact ⟨rfl, sumAcc_some _ _, sumAcc_filterMap _ _⟩

/-- The durations of the frequency series add up to the durations of the
documents of the user dated `startDate` or later. -/
theorem getWorkoutFrequency_duration_sum (collection : List Workout) (now : Int) (userId : Nat)
    (days : Int) :
    ((Workout.getWorkoutFrequency collection now userId days).map
        (fun e => e.totalDuration)).sum
      = ((collection.filter
          (fun w => decide (w.user = userId) && decide (now - days * msPerDay ≤ w.date))).map
          (fun w => w.duration)).sum := by
  rw [((getWorkoutFrequency_perm collection now userId days).map _).sum_eq, List.map_map]
  rw [← groupStage_sum (fun w => w.duration) (fun w => dateToString w.date)]
  congr 1
  apply List.map_congr_left
  intro g _
  exact sumAcc_some _ _

/-- The handler with one instant for its three reads of the clock is
`statsRouteAt` at that instant. -/
theorem statsRoute_eq_statsRouteAt (collection : List Workout) (now : Int) (userId : Nat)
    (days : Int) :
    statsRoute collection now userId days = statsRouteAt collection now now now userId days :=
  rfl

/-- C18, as stated, fails, in two ways.  The handler reads the clock at
2024-01-11 00:00 UTC and `getWorkoutFrequency` reads it 12 ms later.  With
one workout of the user dated 2024-01-12 and a period of 30 days the series
has 30 minutes and the overview has none; with one workout dated 2024-01-01
00:00 UTC, the `startDate` of the handler for a period of 10 days, the
overview has 30 minutes and the series has none. -/
theorem statsRouteAt_duration_mismatch :
    (((statsRouteAt [⟨1, 30, 1705017600000, none, Category.cardio⟩] 1704931200000
        1704931200000 1704931200012 1 30).frequency).map (fun e => e.totalDuration)).sum = 30
    ∧ (statsRouteAt [⟨1, 30, 1705017600000, none, Category.cardio⟩] 1704931200000
        1704931200000 1704931200012 1 30).overview.totalDuration = 0
    ∧ (((statsRouteAt [⟨1, 30, 1704067200000, none, Category.cardio⟩] 1704931200000
        1704931200000 1704931200012 1 10).frequency).map (fun e => e.totalDuration)).sum = 0
    ∧ (statsRouteAt [⟨1, 30, 1704067200000, none, Category.cardio⟩] 1704931200000
        1704931200000 1704931200012 1 10).overview.totalDuration = 30 := by
  refine ⟨by decide, by decide, by decide, by decide⟩

/-- C18, amended: `getWorkoutFrequency` reads the clock after the handler
has (`t0 <= t2`); when every workout of the user dated `startDate` of the
handler or later is dated no later than `endDate` and no earlier than the
`startDate` of `getWorkoutFrequency`, the `totalDuration` fields of the
frequency series of `GET /api/workouts/stats` add up to
`overview.totalDuration`. -/
theorem statsRouteAt_frequency_duration (collection : List Workout) (t0 t1 t2 : Int)
    (userId : Nat) (days : Int)
    (hclock : t0 ≤ t2)
    (hwindow : ∀ w ∈ collection, w.user = userId → t0 - days * msPerDay ≤ w.date →
      t2 - days * msPerDay ≤ w.date ∧ w.date ≤ t1) :
    ((statsRouteAt collection t0 t1 t2 userId days).frequency.map
        (fun e => e.totalDuration)).sum
      = (statsRouteAt collection t0 t1 t2 userId days).overview.totalDuration := by
  show ((Workout.getWorkoutFrequency collection t2 userId days).map
      (fun e => e.totalDuration)).sum
    = (Workout.getUserStats collection userId (some (t0 - days * msPerDay))
        (some t1)).totalDuration
  rw [getWorkoutFrequency_duration_sum, (getUserStats_totals _ _ _ _).2.1]
  congr 2
  apply List.filter_congr
  intro w hw
  by_cases hu : w.user = userId
  · by_cases hd : t0 - days * msPerDay ≤ w.date
    · have h := hwindow w hw hu hd
      simp [matchStage, hu, hd, h.1, h.2]
    · have hd2 : ¬ t2 - days * msPerDay ≤ w.date := by omega
      simp [matchStage, hu, hd, hd2]
  · simp [matchStage, hu]

/-- A request for 30 days whose handler reads the clock at 2024-01-11 00:00
UTC, 12 ms before `getWorkoutFrequency` does: workouts of user 1 on
2024-01-08 and twice on 2024-01-10, one of 2023-11-01, and one of user 2. -/
theorem statsRouteAt_frequency_duration_witness :
    (1704931200000 : Int) ≤ 1704931200012
    ∧ (∀ w ∈ [(⟨1, 30, 1704844800000, some 200, Category.cardio⟩ : Workout),
          ⟨1, 45, 1704880800000, none, Category.strength⟩,
          ⟨2, 60, 1704844800000, some 100, Category.cardio⟩,
          ⟨1, 20, 1704672000000, some 50, Category.cardio⟩,
          ⟨1, 40, 1698796800000, some 300, Category.cardio⟩],
        w.user = 1 → 1704931200000 - 30 * msPerDay ≤ w.date →
          1704931200012 - 30 * msPerDay ≤ w.date ∧ w.date ≤ 1704931200000)
    ∧ ((statsRouteAt
        [⟨1, 30, 1704844800000, some 200, Category.cardio⟩,
          ⟨1, 45, 1704880800000, none, Category.strength⟩,
          ⟨2, 60, 1704844800000, some 100, Category.cardio⟩,
          ⟨1, 20, 1704672000000, some 50, Category.cardio⟩,
          ⟨1, 40, 1698796800000, some 300, Category.cardio⟩]
        1704931200000 1704931200000 1704931200012 1 30).frequency.map
          (fun e => e.totalDuration)).sum
      = (statsRouteAt
        [⟨1, 30, 1704844800000, some 200, Category.cardio⟩,
          ⟨1, 45, 1704880800000, none, Category.strength⟩,
          ⟨2, 60, 1704844800000, some 100, Category.cardio⟩,
          ⟨1, 20, 1704672000000, some 50, Category.cardio⟩,
          ⟨1, 40, 1698796800000, some 300, Category.cardio⟩]
        1704931200000 1704931200000 1704931200012 1 30).overview.totalDuration
    ∧ (statsRouteAt
        [⟨1, 30, 1704844800000, some 200, Category.cardio⟩,
          ⟨1, 45, 1704880800000, none, Category.strength⟩,
          ⟨2, 60, 1704844800000, some 100, Category.cardio⟩,
          ⟨1, 20, 1704672000000, some 50, Category.cardio⟩,
          ⟨1, 40, 1698796800000, some 300, Category.cardio⟩]
        1704931200000 1704931200000 1704931200012 1 30).overview.totalDuration = 95 :=
  ⟨by decide, by decide,
   statsRouteAt_frequency_duration
     [⟨1, 30, 1704844800000, some 200, Category.cardio⟩,
       ⟨1, 45, 1704880800000, none, Category.strength⟩,
       ⟨2, 60, 1704844800000, some 100, Category.cardio⟩,
       ⟨1, 20, 1704672000000, some 50, Category.cardio⟩,
       ⟨1, 40, 1698796800000, some 300, Category.cardio⟩]
     1704931200000 1704931200000 1704931200012 1 30 (by decide) (by decide),
   by decide⟩

/-! ## The category breakdown of the stats route -/

theorem sum_map_one (g : List Workout) :
    (g.map (fun _ => (1 : Int))).sum = (g.length : Int) := by
  induction g with
  | nil => rfl
  | cons a l ih =>
    simp only [List.map_cons, List.sum_cons, List.length_cons, ih]
    push_cast
    ring

/-- C19, as stated, fails: at the instant 2024-01-11 00:00 UTC, with one
cardio workout of the user dated 2024-01-12, the category breakdown has an
entry for cardio with one workout, and the overview counts none. -/
theorem statsRoute_category_mismatch :
    (statsRoute [⟨1, 30, 1705017600000, none, Category.cardio⟩] 1704931200000 1
        30).categoryBreakdown.map (fun e => (e._id, e.count)) = [(Category.cardio, 1)]
    ∧ (statsRoute [⟨1, 30, 1705017600000, none, Category.cardio⟩] 1704931200000 1
        30).overview.totalWorkouts = 0 := by
  constructor <;> decide

/-- C19, amended: the category breakdown of `GET /api/workouts/stats` is
computed over the workouts of the user dated `startDate` or later, with no
upper bound.  It has one entry for each category that has such a workout and
none for another category; an entry has the count, the sum of the durations
and the average duration of the workouts of its category; and when none of
these workouts is dated after the instant of the request, the counts add up
to `overview.totalWorkouts`. -/
theorem statsRoute_categoryBreakdown (collection : List Workout) (now : Int) (userId : Nat)
    (days : Int) :
    ((statsRoute collection now userId days).categoryBreakdown.map (fun e => e._id)).Nodup
    ∧ (∀ c : Category,
        c ∈ (statsRoute collection now userId days).categoryBreakdown.map (fun e => e._id)
        ↔ ∃ w ∈ collection, (w.user = userId ∧ now - days * msPerDay ≤ w.date)
            ∧ w.category = c)
    ∧ (∀ e ∈ (statsRoute collection now userId days).categoryBreakdown,
        e.count = ((collection.filter (fun w => decide
            ((w.user = userId ∧ now - days * msPerDay ≤ w.date)
              ∧ w.category = e._id))).length : Int)
        ∧ e.totalDuration = ((collection.filter (fun w => decide
            ((w.user = userId ∧ now - days * msPerDay ≤ w.date)
              ∧ w.category = e._id))).map (fun w => w.duration)).sum
        ∧ e.avgDuration = some ((e.totalDuration : Rat) / (e.count : Rat)))
    ∧ ((∀ w ∈ collection, w.user = userId → now - days * msPerDay ≤ w.date → w.date ≤ now) →
        ((statsRoute collection now userId days).categoryBreakdown.map (fun e => e.count)).sum
          = (statsRoute collection now userId days).overview.totalWorkouts) := by
  have hfilter : collection.filter
      (fun w => decide (w.user = userId) && decide (now - days * msPerDay ≤ w.date))
      = collection.filter
        (fun w => decide (w.user = userId ∧ now - days * msPerDay ≤ w.date)) := by
    apply List.filter_congr
    intro x _
    simp
  have hcb : (statsRoute collection now userId days).categoryBreakdown
      = (groupStage (fun w => w.category)
          (collection.filter
            (fun w => decide (w.user = userId ∧ now - days * msPerDay ≤ w.date)))).map
          (fun g =>
            ({ _id := g.1
               count := (g.2.length : Int)
               totalDuration := sumAcc (g.2.map (fun w => some w.duration))
               avgDuration := avgAcc (g.2.map (fun w => some w.duration)) } :
              CategoryEntry)) := by
    rw [← hfilter]
    rfl
  obtain ⟨hnd, hkeys, hmem⟩ := groupStage_spec (fun w => w.category)
    (collection.filter (fun w => decide (w.user = userId ∧ now - days * msPerDay ≤ w.date)))
  have hids : (statsRoute collection now userId days).categoryBreakdown.map (fun e => e._id)
      = (groupStage (fun w => w.category)
          (collection.filter
            (fun w => decide (w.user = userId ∧ now - days * msPerDay ≤ w.date)))).map
          Prod.fst := by
    rw [hcb, List.map_map]
    rfl
  refine ⟨?_, ?_, ?_, ?_⟩
  · rw [hids]; exact hnd
  · intro c
    rw [hids, hkeys c]
    constructor
    · rintro ⟨w, hw, hwc⟩
      rw [List.mem_filter] at hw
      exact ⟨w, hw.1, by simpa using hw.2, hwc⟩
    · rintro ⟨w, hw, hp, hwc⟩
      exact ⟨w, List.mem_filter.mpr ⟨hw, by simpa using hp⟩, hwc⟩
  · intro e he
    rw [hcb] at he
    obtain ⟨g, hg, rfl⟩ := List.mem_map.mp he
    have hne := groupStage_ne_nil _ _ g hg
    have hg2 := hmem g hg
    rw [filter_filter_key] at hg2
    simp only
    rw [← hg2]
    refine ⟨rfl, sumAcc_some _ _, ?_⟩
    rw [avgAcc_some _ _ hne, sumAcc_some]
    simp
  · intro hfuture
    have hsum : ((statsRoute collection now userId days).categoryBreakdown.map
        (fun e => e.count)).sum
        = ((collection.filter
            (fun w => decide (w.user = userId ∧ now - days * msPerDay ≤ w.date))).length :
            Int) := by
      rw [hcb, List.map_map, ← sum_map_one, ← groupStage_sum (fun _ => (1 : Int))
        (fun w => w.category)]
      congr 1
      apply List.map_congr_left
      intro g _
      exact (sum_map_one g.2).symm
    rw [hsum]
    show _ = (Workout.getUserStats collection userId (some (now - days * msPerDay))
      (some now)).totalWorkouts
    rw [(getUserStats_totals _ _ _ _).1]
    congr 2
    apply List.filter_congr
    intro w hw
    by_cases hu : w.user = userId
    · by_cases hd : now - days * msPerDay ≤ w.date
      · simp [matchStage, hu, hd, hfuture w hw hu hd]
      · simp [matchStage, hu, hd]
    · simp [matchStage, hu]

/-- A request at 2024-01-11 00:00 UTC for 30 days: two cardio workouts and a
strength workout of user 1 in the window, one of 2023-11-01, and one of
user 2; the counts of the breakdown add up to the three of the overview. -/
theorem statsRoute_categoryBreakdown_witness :
    (∀ w ∈ [(⟨1, 30, 1704844800000, some 200, Category.cardio⟩ : Workout),
          ⟨1, 45, 1704880800000, none, Category.strength⟩,
          ⟨2, 60, 1704844800000, some 100, Category.cardio⟩,
          ⟨1, 20, 1704672000000, some 50, Category.cardio⟩,
          ⟨1, 40, 1698796800000, some 300, Category.cardio⟩],
        w.user = 1 → 1704931200000 - 30 * msPerDay ≤ w.date → w.date ≤ 1704931200000)
    ∧ ((statsRoute
        [⟨1, 30, 1704844800000, some 200, Category.cardio⟩,
          ⟨1, 45, 1704880800000, none, Category.strength⟩,
          ⟨2, 60, 1704844800000, some 100, Category.cardio⟩,
          ⟨1, 20, 1704672000000, some 50, Category.cardio⟩,
          ⟨1, 40, 1698796800000, some 300, Category.cardio⟩]
        1704931200000 1 30).categoryBreakdown.map (fun e => e.count)).sum
      = (statsRoute
        [⟨1, 30, 1704844800000, some 200, Category.cardio⟩,
          ⟨1, 45, 1704880800000, none, Category.strength⟩,
          ⟨2, 60, 1704844800000, some 100, Category.cardio⟩,
          ⟨1, 20, 1704672000000, some 50, Category.cardio⟩,
          ⟨1, 40, 1698796800000, some 300, Category.cardio⟩]
        1704931200000 1 30).overview.totalWorkouts
    ∧ (statsRoute
        [⟨1, 30, 1704844800000, some 200, Category.cardio⟩,
          ⟨1, 45, 1704880800000, none, Category.strength⟩,
          ⟨2, 60, 1704844800000, some 100, Category.cardio⟩,
          ⟨1, 20, 1704672000000, some 50, Category.cardio⟩,
          ⟨1, 40, 1698796800000, some 300, Category.cardio⟩]
        1704931200000 1 30).overview.totalWorkouts = 3 :=
  ⟨by decide,
   (statsRoute_categoryBreakdown
     [⟨1, 30, 1704844800000, some 200, Category.cardio⟩,
       ⟨1, 45, 1704880800000, none, Category.strength⟩,
       ⟨2, 60, 1704844800000, some 100, Category.cardio⟩,
       ⟨1, 20, 1704672000000, some 50, Category.cardio⟩,
       ⟨1, 40, 1698796800000, some 300, Category.cardio⟩]
     1704931200000 1 30).2.2.2 (by decide),
   by decide⟩

/-! ## The window of `getUserStats` -/

/-- C20: with both bounds given, `getUserStats` aggregates the documents `r`
of the user with `startDate <= r.date <= endDate`, both ends included: its
count and sums are those of these documents, and it returns the same object
on these documents alone.  With a bound left out, it does so for all the
documents of the user.  A document of another user is in neither. -/
theorem getUserStats_window (collection : List Workout) (userId : Nat) :
    (∀ s e : Int,
      (Workout.getUserStats collection userId (some s) (some e)).totalWorkouts
        = ((collection.filter (fun r => decide
            (r.user = userId ∧ s ≤ r.date ∧ r.date ≤ e))).length : Int)
      ∧ (Workout.getUserStats collection userId (some s) (some e)).totalDuration
        = ((collection.filter (fun r => decide
            (r.user = userId ∧ s ≤ r.date ∧ r.date ≤ e))).map (fun r => r.duration)).sum
      ∧ (Workout.getUserStats collection userId (some s) (some e)).totalCalories
        = ((collection.filter (fun r => decide
            (r.user = userId ∧ s ≤ r.date ∧ r.date ≤ e))).filterMap
            (fun r => r.caloriesBurned)).sum
      ∧ Workout.getUserStats collection userId (some s) (some e)
        = Workout.getUserStats
            (collection.filter (fun r => decide (r.user = userId ∧ s ≤ r.date ∧ r.date ≤ e)))
            userId (some s) (some e))
    ∧ (∀ startDate endDate : Option Int, startDate = none ∨ endDate = none →
      (Workout.getUserStats collection userId startDate endDate).totalWorkouts
        = ((collection.filter (fun r => decide (r.user = userId))).length : Int)
      ∧ (Workout.getUserStats collection userId startDate endDate).totalDuration
        = ((collection.filter (fun r => decide (r.user = userId))).map
            (fun r => r.duration)).sum
      ∧ (Workout.getUserStats collection userId startDate endDate).totalCalories
        = ((collection.filter (fun r => decide (r.user = userId))).filterMap
            (fun r => r.caloriesBurned)).sum
      ∧ Workout.getUserStats collection userId startDate endDate
        = Workout.getUserStats (collection.filter (fun r => decide (r.user = userId)))
            userId startDate endDate) := by
  constructor
  · intro s e
    have hp : matchStage userId (some s) (some e)
        = fun r => decide (r.user = userId ∧ s ≤ r.date ∧ r.date ≤ e) := by
      funext r
      simp [matchStage, Bool.decide_and]
    have ht := getUserStats_totals collection userId (some s) (some e)
    have hf := getUserStats_filter collection userId (some s) (some e)
    rw [hp] at ht hf
    exact ⟨ht.1, ht.2.1, ht.2.2, hf.symm⟩
  · intro startDate endDate hnone
    have hp : matchStage userId startDate endDate = fun r => decide (r.user = userId) := by
      funext r
      rcases hnone with h | h
      · subst h; rfl
      · subst h
        cases startDate <;> rfl
    have ht := getUserStats_totals collection userId startDate endDate
    have hf := getUserStats_filter collection userId startDate endDate
    rw [hp] at ht hf
    exact ⟨ht.1, ht.2.1, ht.2.2, hf.symm⟩

/-- Workouts of user 1 dated at the start of the range, at its end and one
millisecond past its end, and a workout of user 2 inside the range: the two
at the ends are aggregated, and without a range all three of user 1. -/
theorem getUserStats_window_witness :
    (Workout.getUserStats
        [⟨1, 30, 1704672000000, none, Category.cardio⟩,
          ⟨1, 45, 1704931200000, none, Category.strength⟩,
          ⟨1, 50, 1704931200001, none, Category.other⟩,
          ⟨2, 60, 1704844800000, none, Category.cardio⟩]
        1 (some 1704672000000) (some 1704931200000)).totalWorkouts = 2
    ∧ (Workout.getUserStats
        [⟨1, 30, 1704672000000, none, Category.cardio⟩,
          ⟨1, 45, 1704931200000, none, Category.strength⟩,
          ⟨1, 50, 1704931200001, none, Category.other⟩,
          ⟨2, 60, 1704844800000, none, Category.cardio⟩]
        1 (some 1704672000000) (some 1704931200000)).totalDuration = 75
    ∧ (Workout.getUserStats
        [⟨1, 30, 1704672000000, none, Category.cardio⟩,
          ⟨1, 45, 1704931200000, none, Category.strength⟩,
          ⟨1, 50, 1704931200001, none, Category.other⟩,
          ⟨2, 60, 1704844800000, none, Category.cardio⟩]
        1 none none).totalWorkouts = 3 := by
  have h := getUserStats_window
    [⟨1, 30, 1704672000000, none, Category.cardio⟩,
      ⟨1, 45, 1704931200000, none, Category.strength⟩,
      ⟨1, 50, 1704931200001, none, Category.other⟩,
      ⟨2, 60, 1704844800000, none, Category.cardio⟩] 1
  refine ⟨?_, ?_, ?_⟩
  · rw [(h.1 1704672000000 1704931200000).1]; decide
  · rw [(h.1 1704672000000 1704931200000).2.1]; decide
  · rw [(h.2 none none (Or.inl rfl)).1]; decide

/-! ## The workout routes leave the stats to workout creation -/

/-- C21: the stats of a user change by the creation of a workout only.  When
`POST /api/workouts` answers 201, the users are the same and the stats of
the authenticated user are `updateStats` applied once to the stats read,
with the date and the duration of the workout; when it answers otherwise the
stats of every user are as before; and `PUT /api/workouts/:id` and
`DELETE /api/workouts/:id` leave the stats of every user as they were. -/
theorem workout_routes_stats_frame (tz : Int) (db : Database) (userId newId id : Nat)
    (body : Workout) (assign : Workout → Workout) :
    ((postWorkout tz db userId newId body).1 = 201 →
        (postWorkout tz db userId newId body).2.users.map Prod.fst = db.users.map Prod.fst
        ∧ ∀ user, db.users.find? (fun u => decide (u.1 = userId)) = some user →
            (postWorkout tz db userId newId body).2.users
              = db.users.map (fun u =>
                  if u.1 = userId then
                    (u.1, User.updateStats tz user.2 body.date body.duration)
                  else u))
    ∧ ((postWorkout tz db userId newId body).1 ≠ 201 →
        (postWorkout tz db userId newId body).2.users = db.users)
    ∧ (putWorkout db userId id assign).2.users = db.users
    ∧ (deleteWorkout db userId id).2.users = db.users := by
  refine ⟨?_, ?_, ?_, ?_⟩
  · intro h201
    unfold postWorkout at h201 ⊢
    by_cases hv : schemaValid { body with user := userId } = true
    · simp only [hv, if_true] at h201 ⊢
      cases hf : db.users.find? (fun u => decide (u.1 = userId)) with
      | none => rw [hf] at h201; simp at h201
      | some user =>
        simp only [hf]
        refine ⟨?_, ?_⟩
        · rw [List.map_map]
          apply List.map_congr_left
          intro u _
          by_cases hu : u.1 = userId <;> simp [hu]
        · intro user2 h2
          cases h2
          rfl
    · simp only [hv] at h201
      simp at h201
  · intro hne
    unfold postWorkout at hne ⊢
    by_cases hv : schemaValid { body with user := userId } = true
    · simp only [hv, if_true] at hne ⊢
      cases hf : db.users.find? (fun u => decide (u.1 = userId)) with
      | none => rfl
      | some user => rw [hf] at hne; simp at hne
    · simp only [hv]
      rfl
  · unfold putWorkout
    cases db.workouts.find? (fun d => decide (d.1 = id) && decide (d.2.user = userId)) with
    | none => rfl
    | some found =>
      simp only
      by_cases hv : schemaValid (assign found.2) = true
      · rw [if_pos hv]
      · rw [if_neg hv]
  · unfold deleteWorkout
    cases db.workouts.find? (fun d => decide (d.1 = id) && decide (d.2.user = userId)) with
    | none => rfl
    | some found => rfl

/-- User 1 has a streak of 2 with the last workout on 2024-01-10 and logs a
workout of 30 minutes on 2024-01-11: the route answers 201 and the stats of
user 1 are the one update of them; the stats of user 2 are untouched. -/
theorem workout_routes_stats_frame_witness :
    (postWorkout 0
        ⟨[(5, ⟨1, 40, 1704844800000, none, Category.cardio⟩)],
          [(1, ⟨3, 90, 2, 5, some 1704844800000⟩), (2, defaultStats)]⟩
        1 6 ⟨0, 30, 1704931200000, some 250, Category.strength⟩).1 = 201
    ∧ (postWorkout 0
        ⟨[(5, ⟨1, 40, 1704844800000, none, Category.cardio⟩)],
          [(1, ⟨3, 90, 2, 5, some 1704844800000⟩), (2, defaultStats)]⟩
        1 6 ⟨0, 30, 1704931200000, some 250, Category.strength⟩).2.users
      = [(1, User.updateStats 0 ⟨3, 90, 2, 5, some 1704844800000⟩ 1704931200000 30),
         (2, defaultStats)]
    ∧ (putWorkout
        ⟨[(5, ⟨1, 40, 1704844800000, none, Category.cardio⟩)],
          [(1, ⟨3, 90, 2, 5, some 1704844800000⟩), (2, defaultStats)]⟩
        1 5 (fun w => { w with duration := 600, date := 1704067200000 })).2.users
      = [(1, ⟨3, 90, 2, 5, some 1704844800000⟩), (2, defaultStats)]
    ∧ (deleteWorkout
        ⟨[(5, ⟨1, 40, 1704844800000, none, Category.cardio⟩)],
          [(1, ⟨3, 90, 2, 5, some 1704844800000⟩), (2, defaultStats)]⟩
        1 5).2.users
      = [(1, ⟨3, 90, 2, 5, some 1704844800000⟩), (2, defaultStats)] := by
  have h := workout_routes_stats_frame 0
    ⟨[(5, ⟨1, 40, 1704844800000, none, Category.cardio⟩)],
      [(1, ⟨3, 90, 2, 5, some 1704844800000⟩), (2, defaultStats)]⟩
    1 6 5 ⟨0, 30, 1704931200000, some 250, Category.strength⟩
    (fun w => { w with duration := 600, date := 1704067200000 })
  refine ⟨by decide, ?_, h.2.2.1, h.2.2.2⟩
  rw [(h.1 (by decide)).2 (1, ⟨3, 90, 2, 5, some 1704844800000⟩) rfl]
  rfl

/-! ## `validatePassword` -/

theorem exists_of_matchDotStarClass (cls : Nat → Bool) (s : List Nat)
    (h : matchDotStarClass cls s = true) : ∃ c ∈ s, cls c = true := by
  induction s with
  | nil => simp [matchDotStarClass] at h
  | cons a l ih =>
    simp only [matchDotStarClass, Bool.or_eq_true, Bool.and_eq_true] at h
    rcases h with h | ⟨_, h⟩
    · exact ⟨a, List.mem_cons_self _ _, h⟩
    · obtain ⟨c, hc, hcls⟩ := ih h
      exact ⟨c, List.mem_cons_of_mem _ hc, hcls⟩

theorem matchDotStarClass_of_exists (cls : Nat → Bool) (s : List Nat)
    (hdot : ∀ c ∈ s, matchesDot c = true) (h : ∃ c ∈ s, cls c = true) :
    matchDotStarClass cls s = true := by
  induction s with
  | nil =>
    obtain ⟨c, hc, _⟩ := h
    simp at hc
  | cons a l ih =>
    simp only [matchDotStarClass, Bool.or_eq_true, Bool.and_eq_true]
    obtain ⟨c, hc, hcls⟩ := h
    rcases List.mem_cons.mp hc with rfl | hl
    · exact Or.inl hcls
    · exact Or.inr ⟨hdot a (List.mem_cons_self _ _),
        ih (fun x hx => hdot x (List.mem_cons_of_mem _ hx)) ⟨c, hl, hcls⟩⟩

/-- C22 at the input it fails on: the string `Abcde1` followed by a line feed
has seven characters, an uppercase letter, a lowercase letter and a digit,
so it meets every requirement of the comment above the regular expression
("At least 6 characters, one uppercase, one lowercase, one number"), and
`validatePassword` returns false on it: `.` does not match the line feed. -/
theorem validatePassword_rejects_line_feed :
    validatePassword [65, 98, 99, 100, 101, 49, 10] = false
    ∧ 6 ≤ [65, 98, 99, 100, 101, 49, 10].length
    ∧ (∃ c ∈ [65, 98, 99, 100, 101, 49, 10], isUppercase c = true)
    ∧ (∃ c ∈ [65, 98, 99, 100, 101, 49, 10], isLowercase c = true)
    ∧ (∃ c ∈ [65, 98, 99, 100, 101, 49, 10], isDigit c = true) := by
  decide

/-- What the regular expression of `validatePassword` accepts: the strings
that contain no line terminator, have at least 6 code units, and contain at
least one of `A-Z`, at least one of `a-z` and at least one of `0-9`. -/
theorem validatePassword_iff (p : List Nat) :
    validatePassword p = true
      ↔ (∀ c ∈ p, isLineTerminator c = false)
        ∧ 6 ≤ p.length
        ∧ (∃ c ∈ p, isUppercase c = true)
        ∧ (∃ c ∈ p, isLowercase c = true)
        ∧ (∃ c ∈ p, isDigit c = true) := by
  simp only [validatePassword, matchDotSixToEnd, Bool.and_eq_true, decide_eq_true_eq,
    List.all_eq_true]
  constructor
  · rintro ⟨hl, hu, hd, hlen, hdot⟩
    refine ⟨fun c hc => ?_, hlen, exists_of_matchDotStarClass _ _ hu,
      exists_of_matchDotStarClass _ _ hl, exists_of_matchDotStarClass _ _ hd⟩
    have := hdot c hc
    simpa [matchesDot] using this
  · rintro ⟨hlt, hlen, hu, hl, hd⟩
    have hdot : ∀ c ∈ p, matchesDot c = true := by
      intro c hc
      simp [matchesDot, hlt c hc]
    exact ⟨matchDotStarClass_of_exists _ _ hdot hl, matchDotStarClass_of_exists _ _ hdot hu,
      matchDotStarClass_of_exists _ _ hdot hd, hlen, hdot⟩

/-! ## `validateDuration` -/

theorem leadingDigits_of_all_digits (l : List Nat) (h : l.all isDigit = true) :
    leadingDigits 10 l = l.map (fun c => c - 48) := by
  induction l with
  | nil => rfl
  | cons a t ih =>
    simp only [List.all_cons, Bool.and_eq_true] at h
    have ha : 48 ≤ a ∧ a ≤ 57 := by simpa [isDigit] using h.1
    simp only [leadingDigits, digitValue, if_pos ha, List.map_cons, ih h.2]

theorem not_isWhiteSpace_of_digit_or_sign (c : Nat)
    (h : c = 45 ∨ c = 43 ∨ isDigit c = true) : isWhiteSpace c = false := by
  have hc : c = 45 ∨ c = 43 ∨ (48 ≤ c ∧ c ≤ 57) := by
    rcases h with h | h | h
    · exact Or.inl h
    · exact Or.inr (Or.inl h)
    · exact Or.inr (Or.inr (by simpa [isDigit] using h))
  simp only [isWhiteSpace, isLineTerminator, Bool.or_eq_false_iff, Bool.and_eq_false_imp,
    decide_eq_false_iff_not, decide_eq_true_eq]
  omega

/-- On a string that denotes an integer, `parseInt` returns that integer. -/
theorem parseInt_of_integerOf (d : List Nat) (n : Int) (h : integerOf d = some n) :
    parseInt d = some n := by
  cases d with
  | nil => simp [integerOf] at h
  | cons c rest =>
    unfold integerOf at h
    simp only at h
    by_cases hd : (if (c :: rest).head? = some 45 ∨ (c :: rest).head? = some 43
        then (c :: rest).tail else c :: rest) ≠ []
      ∧ (if (c :: rest).head? = some 45 ∨ (c :: rest).head? = some 43
        then (c :: rest).tail else c :: rest).all isDigit = true
    · rw [if_pos hd] at h
      obtain ⟨hne, hall⟩ := hd
      have hws : isWhiteSpace c = false := by
        apply not_isWhiteSpace_of_digit_or_sign
        by_cases h45 : c = 45
        · exact Or.inl h45
        · by_cases h43 : c = 43
          · exact Or.inr (Or.inl h43)
          · right; right
            have : (if (c :: rest).head? = some 45 ∨ (c :: rest).head? = some 43
                then (c :: rest).tail else c :: rest) = c :: rest := by
              simp [h45, h43]
            rw [this] at hall
            simp only [List.all_cons, Bool.and_eq_true] at hall
            exact hall.1
      have hdrop : (c :: rest).dropWhile isWhiteSpace = c :: rest := by
        simp [List.dropWhile, hws]
      unfold parseInt
      simp only [hdrop]
      generalize (if (c :: rest).head? = some 45 ∨ (c :: rest).head? = some 43
        then (c :: rest).tail else c :: rest) = digits at h hne hall ⊢
      have hnothex : ¬ (digits.take 2 = [48, 120] ∨ digits.take 2 = [48, 88]) := by
        have hmem : ∀ x ∈ digits.take 2, isDigit x = true := by
          intro x hx
          exact (List.all_eq_true.mp hall) x (List.mem_of_mem_take hx)
        rintro (h2 | h2)
        · have := hmem 120 (by rw [h2]; simp)
          simp [isDigit] at this
        · have := hmem 88 (by rw [h2]; simp)
          simp [isDigit] at this
      simp only [hnothex, decide_False, Bool.false_eq_true, if_false]
      rw [leadingDigits_of_all_digits digits hall]
      have hz : ¬ digits.map (fun c => c - 48) = [] := by
        simpa using hne
      rw [if_neg hz, List.foldl_map]
      rw [← h]
      rfl
    · rw [if_neg hd] at h
      cases h

/-- C23, as stated, fails: `validateDuration` returns true on `12.5` and on
`600abc`, which do not denote an integer. -/
theorem validateDuration_accepts_non_integers :
    validateDuration (utf16 "12.5") = true
    ∧ integerOf (utf16 "12.5") = none
    ∧ validateDuration (utf16 "600abc") = true
    ∧ integerOf (utf16 "600abc") = none := by
  decide

/-- C23, amended: `validateDuration` returns true exactly when `parseInt`
reads, after white space and a sign, a run of digits at the start of the
string whose value is between 1 and 600; on a string that denotes an integer
this is that integer, and `validateDuration` returns true exactly when it is
between 1 and 600. -/
theorem validateDuration_iff (d : List Nat) :
    (validateDuration d = true ↔ ∃ n : Int, parseInt d = some n ∧ 1 ≤ n ∧ n ≤ 600)
    ∧ (∀ n : Int, integerOf d = some n →
        parseInt d = some n ∧ (validateDuration d = true ↔ 1 ≤ n ∧ n ≤ 600)) := by
  have hgen : validateDuration d = true ↔ ∃ n : Int, parseInt d = some n ∧ 1 ≤ n ∧ n ≤ 600 := by
    unfold validateDuration
    cases hp : parseInt d with
    | none => simp
    | some v =>
      simp only [Bool.and_eq_true, decide_eq_true_eq, Option.some.injEq, exists_eq_left']
      constructor
      · rintro ⟨h1, h2⟩; exact ⟨by omega, h2⟩
      · rintro ⟨h1, h2⟩; exact ⟨by omega, h2⟩
  refine ⟨hgen, ?_⟩
  intro n hn
  have hp := parseInt_of_integerOf d n hn
  refine ⟨hp, ?_⟩
  rw [hgen, hp]
  simp

/-- The strings `45` and `+600` denote 45 and 600 and are accepted; `601`
denotes 601 and is refused. -/
theorem validateDuration_iff_witness :
    integerOf (utf16 "45") = some 45
    ∧ validateDuration (utf16 "45") = true
    ∧ integerOf (utf16 "601") = some 601
    ∧ validateDuration (utf16 "601") = false := by
  have h1 := ((validateDuration_iff (utf16 "45")).2 45 (by decide)).2
  have h2 := ((validateDuration_iff (utf16 "601")).2 601 (by decide)).2
  refine ⟨by decide, h1.mpr (by decide), by decide, ?_⟩
  cases hv : validateDuration (utf16 "601") with
  | false => rfl
  | true =>
    have := h2.mp hv
    omega

/-! ## `validateWorkout` -/

/-- C24 at the input it fails on: a workout with a name, a type, a duration
and one named exercise whose only set has `reps = 0`, a value outside
1..1000.  `validateWorkout` reports no error and returns `isValid = true`:
the guard `set.reps &&` is false for 0, so the comparison `set.reps <= 0` is
never made.  With `reps = -1` in its place the error is reported. -/
theorem validateWorkout_reps_zero_unreported :
    validateWorkout
        ⟨some (utf16 "Leg day"), some (utf16 "strength"), some 45,
          some [⟨some (utf16 "Squat"), some [⟨some 0, some 60⟩]⟩]⟩
      = ⟨true, []⟩
    ∧ validateWorkout
        ⟨some (utf16 "Leg day"), some (utf16 "strength"), some 45,
          some [⟨some (utf16 "Squat"), some [⟨some (-1), some 60⟩]⟩]⟩
      = ⟨false, ["Exercise 1, Set 1: Reps must be between 1 and 1000"]⟩ := by
  decide

/-! ## `sanitizeInput` -/

theorem trim_eq_self (r : List Nat)
    (hhead : ∀ c, r.head? = some c → isWhiteSpace c = false)
    (hlast : ∀ c, r.getLast? = some c → isWhiteSpace c = false) :
    trim r = r := by
  have h1 : r.dropWhile isWhiteSpace = r := by
    cases r with
    | nil => rfl
    | cons a t =>
      have := hhead a rfl
      simp [List.dropWhile, this]
  have h2 : r.reverse.dropWhile isWhiteSpace = r.reverse := by
    cases hr : r.reverse with
    | nil => rfl
    | cons a t =>
      have hl : r.getLast? = some a := by
        rw [List.getLast?_eq_head?_reverse, hr]
        rfl
      have := hlast a hl
      simp [List.dropWhile, this]
  unfold trim
  rw [h1, h2, List.reverse_reverse]

/-- C25: on a string, the result of `sanitizeInput` is a string that
contains neither `<` nor `>` and has at most 1000 code units; on a value
that is not a string, the result is the value itself. -/
theorem sanitizeInput_result (input : JsValue) :
    (∀ s : List Nat, input = JsValue.string s →
      ∃ r : List Nat, sanitizeInput input = JsValue.string r
        ∧ 60 ∉ r ∧ 62 ∉ r ∧ r.length ≤ 1000)
    ∧ ((∀ s : List Nat, input ≠ JsValue.string s) → sanitizeInput input = input) := by
  constructor
  · intro s hs
    subst hs
    refine ⟨((trim s).filter (fun c : Nat => !(decide (c = 60) || decide (c = 62)))).take 1000,
      rfl, ?_, ?_, ?_⟩
    · intro h
      have := (List.mem_filter.mp (List.mem_of_mem_take h)).2
      simp at this
    · intro h
      have := (List.mem_filter.mp (List.mem_of_mem_take h)).2
      simp at this
    · exact List.length_take_le _ _
  · intro h
    cases input with
    | string s => exact absurd rfl (h s)
    | number n => rfl
    | boolean b => rfl
    | null => rfl
    | undefined => rfl
    | object ref => rfl

/-- The text ` <b>hi</b> ` becomes `bhi/b`; the number 42 stays the number
42. -/
theorem sanitizeInput_result_witness :
    sanitizeInput (JsValue.string (utf16 " <b>hi</b> ")) = JsValue.string (utf16 "bhi/b")
    ∧ sanitizeInput (JsValue.number 42) = JsValue.number 42 :=
  ⟨by decide,
   (sanitizeInput_result (JsValue.number 42)).2 (fun s h => by cases h)⟩

/-! ## The photo selection of the workout form -/

theorem removePhoto_sublist (prev : List File) (index : Nat) :
    (removePhoto prev index).Sublist prev := by
  unfold removePhoto
  have h := (List.filter_sublist (p := fun p : Nat × File => decide (p.1 ≠ index))
    prev.enum).map Prod.snd
  rwa [List.enum_map_snd] at h

/-- C26: after any sequence of calls of `handlePhotoChange` and
`removePhoto`, starting from the empty selection, `progressPhotos` has at
most 5 entries, and each entry is a file whose type starts with `image/` and
whose size is at most `5 * 1024 * 1024` bytes. -/
theorem applyPhotoEvents_invariant (events : List PhotoEvent) :
    (applyPhotoEvents events []).length ≤ 5
    ∧ ∀ f ∈ applyPhotoEvents events [],
        startsWith f.type (utf16 "image/") = true ∧ f.size ≤ 5 * 1024 * 1024 := by
  induction events using List.reverseRecOn with
  | nil =>
    refine ⟨by simp [applyPhotoEvents], ?_⟩
    intro f hf
    simp [applyPhotoEvents] at hf
  | append_singleton l ev ih =>
    obtain ⟨hlen, hall⟩ := ih
    have hstep : applyPhotoEvents (l ++ [ev]) []
        = match ev with
          | PhotoEvent.change files => handlePhotoChange (applyPhotoEvents l []) files
          | PhotoEvent.remove index => removePhoto (applyPhotoEvents l []) index := by
      simp [applyPhotoEvents, List.foldl_append]
    rw [hstep]
    cases ev with
    | change files =>
      simp only
      refine ⟨List.length_take_le _ _, ?_⟩
      intro f hf
      rcases List.mem_append.mp (List.mem_of_mem_take hf) with h | h
      · exact hall f h
      · have hv := (List.mem_filter.mp h).2
        simpa [isValidPhoto] using hv
    | remove index =>
      simp only
      have hsub := removePhoto_sublist (applyPhotoEvents l []) index
      exact ⟨le_trans hsub.length_le hlen, fun f hf => hall f (hsub.subset hf)⟩

/-! ## The streak against the number of workouts and of days -/

theorem updateStats_currentStreak_cases (tz : Int) (s : Stats) (w d : Int) :
    (User.updateStats tz s w d).currentStreak = s.currentStreak + 1
    ∨ (User.updateStats tz s w d).currentStreak = 1
    ∨ (User.updateStats tz s w d).currentStreak = s.currentStreak := by
  cases hl : s.lastWorkoutDate with
  | none =>
    right; left
    simp only [User.updateStats, hl]
  | some last =>
    rw [updateStats_currentStreak_some tz s last w d hl]
    split_ifs
    · exact Or.inl rfl
    · exact Or.inr (Or.inl rfl)
    · exact Or.inr (Or.inr rfl)

/-- C27: every stats record reached from the initial stats by any sequence
of `updateStats` calls, in any date order, has
`currentStreak <= totalWorkouts` and `longestStreak <= totalWorkouts`. -/
theorem applyWorkouts_streaks_le_total (tz : Int) (ws : List (Int × Int)) :
    (applyWorkouts tz defaultStats ws).currentStreak
        ≤ (applyWorkouts tz defaultStats ws).totalWorkouts
    ∧ (applyWorkouts tz defaultStats ws).longestStreak
        ≤ (applyWorkouts tz defaultStats ws).totalWorkouts := by
  induction ws using List.reverseRecOn with
  | nil => simp [applyWorkouts, defaultStats]
  | append_singleton l a ih =>
    obtain ⟨hc, hl⟩ := ih
    have htw := (applyWorkouts_counters_from tz defaultStats l).1
    have htw0 : 0 ≤ (applyWorkouts tz defaultStats l).totalWorkouts := by
      rw [htw]
      simp [defaultStats]
    rw [applyWorkouts_append_singleton]
    have hcur := updateStats_currentStreak_cases tz (applyWorkouts tz defaultStats l) a.1 a.2
    have hlong := updateStats_longestStreak_eq tz (applyWorkouts tz defaultStats l) a.1 a.2
    have htot : (User.updateStats tz (applyWorkouts tz defaultStats l) a.1 a.2).totalWorkouts
        = (applyWorkouts tz defaultStats l).totalWorkouts + 1 := rfl
    have hc2 : (User.updateStats tz (applyWorkouts tz defaultStats l) a.1 a.2).currentStreak
        ≤ (applyWorkouts tz defaultStats l).totalWorkouts + 1 := by
      rcases hcur with h | h | h <;> rw [h] <;> omega
    refine ⟨by rw [htot]; exact hc2, ?_⟩
    rw [hlong, htot]
    exact max_le (by omega) hc2

/-- C28, as stated, fails: workouts dated 2024-01-10, 2024-01-11, 2024-01-10
and 2024-01-11, logged in this order, leave a streak of 3, and the log has
workouts on 2 distinct calendar days. -/
theorem applyWorkouts_streak_exceeds_days :
    (applyWorkouts 0 defaultStats
        [(1704844800000, 30), (1704931200000, 30), (1704844800000, 30),
          (1704931200000, 30)]).currentStreak = 3
    ∧ (workoutDays 0
        [(1704844800000, 30), (1704931200000, 30), (1704844800000, 30),
          (1704931200000, 30)]).dedup.length = 2 := by
  constructor
  · simp [applyWorkouts, User.updateStats, defaultStats, daysDifference, setHoursZero, msPerDay]
    norm_num
  · decide

/-- C28, amended: for a log applied to the initial stats in non-decreasing
calendar-day order, the final `currentStreak` does not exceed the number of
distinct calendar days on which a workout of the log was logged. -/
theorem applyWorkouts_streak_le_days_sorted (tz : Int) (ws : List (Int × Int))
    (hsorted : ws.Pairwise (fun x y => calendarDay tz x.1 ≤ calendarDay tz y.1)) :
    (applyWorkouts tz defaultStats ws).currentStreak
      ≤ ((workoutDays tz ws).dedup.length : Int) := by
  rcases List.eq_nil_or_concat ws with rfl | ⟨l, a, rfl⟩
  · simp [applyWorkouts, defaultStats, workoutDays]
  · rw [List.concat_eq_append] at hsorted ⊢
    obtain ⟨_, n, hn, _, _, hin, _⟩ := applyWorkouts_sorted_run tz l a hsorted
    rw [hn]
    have hnodup : ((List.range n).map (fun i : Nat => calendarDay tz a.1 - (i : Int))).Nodup := by
      apply List.Nodup.map _ (List.nodup_range n)
      intro i j hij
      simp only at hij
      omega
    have hsub : (List.range n).map (fun i : Nat => calendarDay tz a.1 - (i : Int))
        ⊆ (workoutDays tz (l ++ [a])).dedup := by
      intro x hx
      obtain ⟨i, hi, rfl⟩ := List.mem_map.mp hx
      exact List.mem_dedup.mpr (hin i (List.mem_range.mp hi))
    have hlen := (hnodup.subperm hsub).length_le
    simp only [List.length_map, List.length_range] at hlen
    exact_mod_cast hlen

/-- Workouts on 2024-01-08, 2024-01-10 (two), 2024-01-11 and 2024-01-12, in
this order: four distinct days, and a streak of at most four. -/
theorem applyWorkouts_streak_le_days_sorted_witness :
    List.Pairwise (fun x y => calendarDay 0 x.1 ≤ calendarDay 0 y.1)
        [((1704672000000 : Int), (30 : Int)), (1704844800000, 45), (1704880800000, 20),
          (1704931200000, 60), (1705017600000, 25)]
    ∧ (applyWorkouts 0 defaultStats
        [(1704672000000, 30), (1704844800000, 45), (1704880800000, 20),
         (1704931200000, 60), (1705017600000, 25)]).currentStreak ≤ 4 := by
  have h := applyWorkouts_streak_le_days_sorted 0
    [(1704672000000, 30), (1704844800000, 45), (1704880800000, 20),
     (1704931200000, 60), (1705017600000, 25)] (by decide)
  have hd : (workoutDays 0
      [(1704672000000, 30), (1704844800000, 45), (1704880800000, 20),
       (1704931200000, 60), (1705017600000, 25)]).dedup.length = 4 := by decide
  rw [hd] at h
  exact ⟨by decide, h⟩

/-! ## `getPasswordStrength` -/

theorem any_iff_exists (cls : Nat → Bool) (p : List Nat) :
    (∃ c ∈ p, cls c = true) ↔ p.any cls = true := by
  simp [List.any_eq_true]

/-- C29: on a non-empty password, `getPasswordStrength` returns a result (the
lookup in `strengthLevels` finds a level); its `strength` is the number of
checks that hold among: at least 8 code units, a lowercase letter, an
uppercase letter, a digit, a special character; it is at most 5; the label
is `Very Weak` for 0 and 1, `Weak` for 2, `Fair` for 3, `Good` for 4 and
`Strong` for 5; and a color is present. -/
theorem getPasswordStrength_nonempty (p : List Nat) (hne : p ≠ []) :
    ∃ r : PasswordStrength, getPasswordStrength p = some r
      ∧ r.strength
          = (if 8 ≤ p.length then 1 else 0)
            + (if ∃ c ∈ p, isLowercase c = true then 1 else 0)
            + (if ∃ c ∈ p, isUppercase c = true then 1 else 0)
            + (if ∃ c ∈ p, isDigit c = true then 1 else 0)
            + (if ∃ c ∈ p, isSpecial c = true then 1 else 0)
      ∧ r.strength ≤ 5
      ∧ r.label
          = (if r.strength ≤ 1 then "Very Weak"
             else if r.strength = 2 then "Weak"
             else if r.strength = 3 then "Fair"
             else if r.strength = 4 then "Good"
             else "Strong")
      ∧ r.color.isSome = true := by
  unfold getPasswordStrength
  rw [if_neg hne]
  simp only [any_iff_exists, ge_iff_le]
  generalize p.any isLowercase = b2
  generalize p.any isUppercase = b3
  generalize p.any isDigit = b4
  generalize p.any isSpecial = b5
  by_cases h8 : 8 ≤ p.length
  · simp only [h8, decide_True, if_true]
    cases b2 <;> cases b3 <;> cases b4 <;> cases b5 <;> exact ⟨_, rfl, by decide⟩
  · simp only [h8, decide_False, if_false]
    cases b2 <;> cases b3 <;> cases b4 <;> cases b5 <;> exact ⟨_, rfl, by decide⟩

/-- The password `Abcde1!x` meets the five checks and is `Strong`; the
password `abc` meets one and is `Very Weak`. -/
theorem getPasswordStrength_nonempty_witness :
    utf16 "Abcde1!x" ≠ []
    ∧ (getPasswordStrength (utf16 "Abcde1!x")).map (fun r => (r.strength, r.label))
        = some (5, "Strong")
    ∧ (getPasswordStrength (utf16 "abc")).map (fun r => (r.strength, r.label))
        = some (1, "Very Weak") := by
  obtain ⟨r, hr, hs, _, hl, _⟩ := getPasswordStrength_nonempty (utf16 "Abcde1!x") (by decide)
  have hs5 : r.strength = 5 := by
    rw [hs]
    decide
  refine ⟨by decide, ?_, by decide⟩
  rw [hr, Option.map_some', hl, hs5]
  rfl

/-! ## `sanitizeInput` applied twice -/

/-- C30, as stated, fails: on the text `< a` the result of `sanitizeInput`
is ` a`, with a leading space, and `sanitizeInput` on that result is `a`. -/
theorem sanitizeInput_not_idempotent :
    sanitizeInput (JsValue.string (utf16 "< a")) = JsValue.string (utf16 " a")
    ∧ sanitizeInput (sanitizeInput (JsValue.string (utf16 "< a"))) = JsValue.string (utf16 "a")
    ∧ sanitizeInput (sanitizeInput (JsValue.string (utf16 "< a")))
        ≠ sanitizeInput (JsValue.string (utf16 "< a")) := by
  decide

/-- C30, amended: when the result of `sanitizeInput` on a string neither
starts nor ends with white space, `sanitizeInput` returns it unchanged. -/
theorem sanitizeInput_idempotent_of_trimmed (s r : List Nat)
    (hr : sanitizeInput (JsValue.string s) = JsValue.string r)
    (hhead : ∀ c, r.head? = some c → isWhiteSpace c = false)
    (hlast : ∀ c, r.getLast? = some c → isWhiteSpace c = false) :
    sanitizeInput (sanitizeInput (JsValue.string s)) = sanitizeInput (JsValue.string s) := by
  rw [hr]
  have hr2 : r = ((trim s).filter (fun c : Nat => !(decide (c = 60) || decide (c = 62)))).take
      1000 := by
    have h : JsValue.string
        (((trim s).filter (fun c : Nat => !(decide (c = 60) || decide (c = 62)))).take 1000)
        = JsValue.string r := hr
    injection h with h
    exact h.symm
  have hfilter : r.filter (fun c : Nat => !(decide (c = 60) || decide (c = 62))) = r := by
    rw [List.filter_eq_self]
    intro c hc
    rw [hr2] at hc
    exact (List.mem_filter.mp (List.mem_of_mem_take hc)).2
  have hlen : r.length ≤ 1000 := by
    rw [hr2]
    exact List.length_take_le _ _
  show JsValue.string
      (((trim r).filter (fun c : Nat => !(decide (c = 60) || decide (c = 62)))).take 1000)
    = JsValue.string r
  rw [trim_eq_self r hhead hlast, hfilter, List.take_of_length_le hlen]

/-- The text ` <b>hi</b> ` is sanitized to `bhi/b`, which has no white space
at its ends, and a second pass returns `bhi/b` again. -/
theorem sanitizeInput_idempotent_of_trimmed_witness :
    sanitizeInput (JsValue.string (utf16 " <b>hi</b> ")) = JsValue.string (utf16 "bhi/b")
    ∧ sanitizeInput (sanitizeInput (JsValue.string (utf16 " <b>hi</b> ")))
        = sanitizeInput (JsValue.string (utf16 " <b>hi</b> ")) :=
  ⟨by decide,
   sanitizeInput_idempotent_of_trimmed (utf16 " <b>hi</b> ") (utf16 "bhi/b") (by decide)
     (by decide) (by decide)⟩

/-! ## The method in a zone with daylight saving -/

theorem setHoursZeroIn_fixedZone (tz t : Int) :
    setHoursZeroIn (fixedZone tz) t = setHoursZero tz t := by
  simp only [setHoursZeroIn, fixedZone, setHoursZero]
  ring

/-- In a zone with a fixed offset the method in any zone is
`User.updateStats`. -/
theorem updateStatsIn_fixedZone (tz : Int) (s : Stats) (w d : Int) :
    User.updateStatsIn (fixedZone tz) s w d = User.updateStats tz s w d := by
  simp only [User.updateStatsIn, User.updateStats, setHoursZeroIn_fixedZone]

theorem localDay_fixedZone (tz t : Int) :
    localDay (fixedZone tz) t = calendarDay tz t :=
  rfl

theorem applyWorkoutsIn_fixedZone (tz : Int) (s : Stats) (ws : List (Int × Int)) :
    applyWorkoutsIn (fixedZone tz) s ws = applyWorkouts tz s ws := by
  simp only [applyWorkoutsIn, applyWorkouts, updateStatsIn_fixedZone]

/-- C1 at the input it fails on: in the zone America/New_York, with the
stored `lastWorkoutDate` at 12:00 of 2024-11-03 and a workout at 12:00 of
2024-11-04, the next calendar day.  Daylight saving ends on 2024-11-03, so
the two local midnights are 25 hours apart, `daysDifference` is 25/24, the
test `=== 1` fails, the test `> 1` holds, and `updateStats` sets
`currentStreak` to 1 where the claim gives 2 + 1. -/
theorem updateStatsIn_newYork_consecutive_day :
    localDay newYork 1730739600000 = localDay newYork 1730653200000 + 1
    ∧ setHoursZeroIn newYork 1730739600000 - setHoursZeroIn newYork 1730653200000
        = 25 * 3600000
    ∧ daysDifference (setHoursZeroIn newYork 1730739600000)
        (setHoursZeroIn newYork 1730653200000) = 25 / 24
    ∧ (User.updateStatsIn newYork ⟨3, 90, 2, 5, some 1730653200000⟩ 1730739600000
        30).currentStreak = 1
    ∧ (User.updateStatsIn newYork ⟨3, 90, 2, 5, some 1730653200000⟩ 1730739600000
        30).currentStreak ≠ 2 + 1 := by
  refine ⟨by decide, by decide, ?_, ?_, ?_⟩
  · simp [daysDifference, setHoursZeroIn, newYork, msPerDay]
    norm_num
  · simp [User.updateStatsIn, daysDifference, setHoursZeroIn, newYork, msPerDay]
    norm_num
  · simp [User.updateStatsIn, daysDifference, setHoursZeroIn, newYork, msPerDay]
    norm_num

/-- C10 at the input it fails on: in the zone America/New_York, the log of
workouts at 12:00 (13:00 before the change) of 2024-11-02, 2024-11-03 and
2024-11-04 is in calendar-day order and has a workout on each of the three
days up to the last, so the run that ends at the last day is 3 days long;
`updateStats` leaves `currentStreak` at 1, because the midnights of
2024-11-03 and 2024-11-04 are 25 hours apart. -/
theorem applyWorkoutsIn_newYork_currentStreak :
    List.Pairwise (fun x y => localDay newYork x.1 ≤ localDay newYork y.1)
        [((1730566800000 : Int), (30 : Int)), (1730653200000, 30), (1730739600000, 30)]
    ∧ streakEndingAt
        ([((1730566800000 : Int), (30 : Int)), (1730653200000, 30),
          (1730739600000, 30)].map (fun w => localDay newYork w.1))
        (localDay newYork 1730739600000) 3 = 3
    ∧ (applyWorkoutsIn newYork defaultStats
        [(1730566800000, 30), (1730653200000, 30), (1730739600000, 30)]).currentStreak = 1 := by
  refine ⟨by decide, by decide, ?_⟩
  simp [applyWorkoutsIn, User.updateStatsIn, defaultStats, daysDifference, setHoursZeroIn,
    newYork, msPerDay]
  norm_num

/-- C11 at the input it fails on: for the same log in the zone
America/New_York, workouts on 2024-11-02, 2024-11-03 and 2024-11-04 in this
order, the longest run of consecutive calendar days with a workout is 3 days
long, and `updateStats` leaves `longestStreak` at 2. -/
theorem applyWorkoutsIn_newYork_longestStreak :
    List.Pairwise (fun x y => localDay newYork x.1 ≤ localDay newYork y.1)
        [((1730566800000 : Int), (30 : Int)), (1730653200000, 30), (1730739600000, 30)]
    ∧ longestStreakIn
        ([((1730566800000 : Int), (30 : Int)), (1730653200000, 30),
          (1730739600000, 30)].map (fun w => localDay newYork w.1)) = 3
    ∧ (applyWorkoutsIn newYork defaultStats
        [(1730566800000, 30), (1730653200000, 30), (1730739600000, 30)]).longestStreak = 2 := by
  refine ⟨by decide, by decide, ?_⟩
  simp [applyWorkoutsIn, User.updateStatsIn, defaultStats, daysDifference, setHoursZeroIn,
    newYork, msPerDay]
  norm_num

end FitnessTracker
